import Mathlib

/-
Verification development for the lilypad solver store: a shallow embedding of the
entity model, the query predicates, the in-memory backend, the durable (database)
backend, and the match-decision ledger, together with theorems settling the frozen
claims about this code.

The repository sources available are src/pkg/http/types.go (the on-chain
SharedStructs enumeration), src/pkg/mediator/mediator.go, and the store conformance
test src/pkg/solver/store/store_test.go.  The store implementations themselves
(pkg/solver/store, pkg/solver/store/memory, pkg/solver/store/db, pkg/data) are not
among the sources, so the definitions below marked "Modelled from the spec" embed
those components faithfully from the specification's words, constrained by how the
conformance test in src exercises them.
-/

/-- Agreement state names of the on-chain enumeration `SharedStructs.AgreementState`
declared in src/pkg/http/types.go, in declaration order. -/
def onChainAgreementStateNames : List String :=
  ["DealNegotiating", "DealAgreed", "ResultsSubmitted", "ResultsAccepted",
   "ResultsChecked", "MediationAccepted", "MediationRejected",
   "TimeoutSubmitResults", "TimeoutJudgeResults", "TimeoutMediateResults"]

/-- Modelled from the spec: the `data` package's `AgreementState` name list (pkg/data
is not under src/).  The spec lists the ten on-chain states; the store conformance
test additionally resolves the name "JobOfferCancelled"
(src/pkg/solver/store/store_test.go line 154), so the modelled list is the on-chain
enumeration extended with that cancellation state. -/
def AgreementState : List String :=
  onChainAgreementStateNames ++ ["JobOfferCancelled"]

/-- Modelled from the spec: `data.GetAgreementStateIndex` (pkg/data is not under
src/) resolves a state name to its integer code, the name's index in
`AgreementState`.  Codes are Go uint8 values; they are small list indexes, kept as
`Nat` here. -/
def GetAgreementStateIndex (name : String) : Nat :=
  AgreementState.indexOf name

/-- Modelled from the spec: `data.GetDefaultAgreementState` (pkg/data is not under
src/), the State code a fresh offer carries; the first enumeration member. -/
def GetDefaultAgreementState : Nat :=
  GetAgreementStateIndex "DealNegotiating"

/-- The cancelled code compared against by the job-offer query engine's
`IncludeCancelled` filter (resolved from the name the store test uses). -/
def jobOfferCancelledState : Nat :=
  GetAgreementStateIndex "JobOfferCancelled"

/-- The code of "ResultsSubmitted": the resource-offer `Active` filter keeps exactly
the states strictly before this one. -/
def resultsSubmittedState : Nat :=
  GetAgreementStateIndex "ResultsSubmitted"

/-- Modelled from the spec: `data.JobOfferContainer`, restricted to the fields the
store and its queries read (pkg/data is not under src/). -/
structure JobOfferContainer where
  ID : String
  JobCreator : String
  DealID : String
  State : Nat
deriving DecidableEq

/-- Modelled from the spec: `data.ResourceOfferContainer`, restricted to the fields
the store and its queries read (pkg/data is not under src/). -/
structure ResourceOfferContainer where
  ID : String
  ResourceProvider : String
  DealID : String
  State : Nat
deriving DecidableEq

/-- Modelled from the spec: `data.DealTransactionsJobCreator`, the job creator's
transaction-hash sub-record (pkg/data is not under src/; field list from the store
test). -/
structure DealTransactionsJobCreator where
  Agree : String
  AcceptResult : String
  CheckResult : String
  TimeoutAgree : String
  TimeoutSubmitResult : String
  TimeoutMediateResult : String
deriving DecidableEq

/-- Modelled from the spec: `data.DealTransactionsResourceProvider` (pkg/data is not
under src/; field list from the store test). -/
structure DealTransactionsResourceProvider where
  Agree : String
  AddResult : String
  TimeoutAgree : String
  TimeoutJudgeResult : String
  TimeoutMediateResult : String
deriving DecidableEq

/-- Modelled from the spec: `data.DealTransactionsMediator` (pkg/data is not under
src/; field list from the store test). -/
structure DealTransactionsMediator where
  MediationAcceptResult : String
  MediationRejectResult : String
deriving DecidableEq

/-- Modelled from the spec: `data.DealTransactions`, the nested record of three
role-scoped transaction sub-records. -/
structure DealTransactions where
  JobCreator : DealTransactionsJobCreator
  ResourceProvider : DealTransactionsResourceProvider
  Mediator : DealTransactionsMediator
deriving DecidableEq

/-- Modelled from the spec: `data.DealContainer`, restricted to the fields the store
and its queries read (pkg/data is not under src/). -/
structure DealContainer where
  ID : String
  JobCreator : String
  ResourceProvider : String
  Mediator : String
  State : Nat
  Transactions : DealTransactions
deriving DecidableEq

/-- Modelled from the spec: `data.Result`, keyed by DealID rather than by its own
ID. -/
structure Result where
  DealID : String
  ID : String
deriving DecidableEq

/-- Modelled from the spec: `data.MatchDecision`, a decision for one
(ResourceOffer, JobOffer) pair. -/
structure MatchDecision where
  ResourceOffer : String
  JobOffer : String
  Deal : String
  Result : Bool
deriving DecidableEq

/-- Modelled from the spec: `store.GetJobOffersQuery`; every field is independently
optional, the zero value meaning "do not filter on this dimension" (and, for
`IncludeCancelled`, the asymmetric default that cancelled offers are excluded). -/
structure GetJobOffersQuery where
  JobCreator : String := ""
  NotMatched : Bool := false
  IncludeCancelled : Bool := false
deriving DecidableEq

/-- Modelled from the spec: `store.GetResourceOffersQuery`. -/
structure GetResourceOffersQuery where
  ResourceProvider : String := ""
  NotMatched : Bool := false
  Active : Bool := false
deriving DecidableEq

/-- Modelled from the spec: `store.GetDealsQuery`; `State` is given as a state name
and resolved to its integer code before comparison. -/
structure GetDealsQuery where
  JobCreator : String := ""
  ResourceProvider : String := ""
  Mediator : String := ""
  State : String := ""
deriving DecidableEq

/-- Lexicographic comparison of character lists by code point, as a boolean. -/
def charListLe : List Char → List Char → Bool
  | [], _ => true
  | _ :: _, [] => false
  | a :: as, b :: bs =>
    if a.toNat < b.toNat then true
    else if b.toNat < a.toNat then false
    else charListLe as bs

/-- Lexicographic string comparison by code point, as a boolean. -/
def strLe (a b : String) : Bool :=
  charListLe a.data b.data

/-- Modelled from the spec: `store.GetMatchID` (pkg/solver/store is not under src/),
the ledger's primary key: a deterministic key for the unordered pair of offer ids,
independent of which id is passed first — the two ids joined in lexicographic
order. -/
def GetMatchID (resourceOffer : String) (jobOffer : String) : String :=
  if strLe resourceOffer jobOffer then resourceOffer ++ "-" ++ jobOffer
  else jobOffer ++ "-" ++ resourceOffer

/-- Error taxonomy of the store contract (spec section 7) relevant to the shallow
embedding: Duplicate on colliding Add, NotFound on Remove or facet-Update of a
missing key. -/
inductive StoreError where
  | duplicate
  | notFound
deriving DecidableEq

/-- Modelled from the spec: the job-offer query predicate.  Present filters combine
with AND; an omitted (zero-value) field does not filter, except that
`IncludeCancelled = false` excludes offers whose State equals the cancelled code. -/
def matchesJobOffer (q : GetJobOffersQuery) (jo : JobOfferContainer) : Bool :=
  (q.JobCreator == "" || jo.JobCreator == q.JobCreator)
    && (!q.NotMatched || jo.DealID == "")
    && (q.IncludeCancelled || !(jo.State == jobOfferCancelledState))

/-- Modelled from the spec: the resource-offer query predicate.  `Active` keeps
exactly the pre-submission states, strictly before ResultsSubmitted. -/
def matchesResourceOffer (q : GetResourceOffersQuery) (ro : ResourceOfferContainer) : Bool :=
  (q.ResourceProvider == "" || ro.ResourceProvider == q.ResourceProvider)
    && (!q.NotMatched || ro.DealID == "")
    && (!q.Active || decide (ro.State < resultsSubmittedState))

/-- Modelled from the spec: the deal query predicate; the `State` name is resolved
to its integer code before comparison. -/
def matchesDeal (q : GetDealsQuery) (d : DealContainer) : Bool :=
  (q.JobCreator == "" || d.JobCreator == q.JobCreator)
    && (q.ResourceProvider == "" || d.ResourceProvider == q.ResourceProvider)
    && (q.Mediator == "" || d.Mediator == q.Mediator)
    && (q.State == "" || d.State == GetAgreementStateIndex q.State)

/-- Modelled from the spec: the wildcard predicate of the match-ledger Remove; an
empty-string argument matches any value in that position. -/
def matchesWildcard (resourceOffer jobOffer : String) (d : MatchDecision) : Bool :=
  (resourceOffer == "" || d.ResourceOffer == resourceOffer)
    && (jobOffer == "" || d.JobOffer == jobOffer)

/-- Generic Add over an in-memory collection with key `k`: fails with Duplicate on a
colliding key, otherwise appends and returns the stored record. -/
def memAdd {α : Type} (k : α → String) (l : List α) (x : α) :
    Except StoreError (α × List α) :=
  if l.any (fun y => k y == k x) then .error .duplicate
  else .ok (x, l ++ [x])

/-- Generic Get over an in-memory collection: absence is `none`, not an error. -/
def memGet {α : Type} (k : α → String) (l : List α) (id : String) : Option α :=
  l.find? (fun y => k y == id)

/-- Generic Remove over an in-memory collection: fails with NotFound if absent. -/
def memRemove {α : Type} (k : α → String) (l : List α) (id : String) :
    Except StoreError (List α) :=
  if l.any (fun y => k y == id) then .ok (l.filter (fun y => !(k y == id)))
  else .error .notFound

/-- Generic field-level Update over an in-memory collection: applies `g` to the
record with key `id`, returning the full updated record; NotFound if absent. -/
def memUpdate {α : Type} (k : α → String) (g : α → α) (l : List α) (id : String) :
    Except StoreError (α × List α) :=
  match l.find? (fun y => k y == id) with
  | none => .error .notFound
  | some y => .ok (g y, l.map (fun z => if k z == id then g z else z))

/-- Modelled from the spec: the in-memory backend `memorystore.SolverStoreMemory`
(pkg/solver/store/memory is not under src/): one indexed in-process collection per
entity kind. -/
structure SolverStoreMemory where
  jobOffers : List JobOfferContainer
  resourceOffers : List ResourceOfferContainer
  deals : List DealContainer
  results : List Result
  matchDecisions : List MatchDecision
deriving DecidableEq

/-- Modelled from the spec: `memorystore.NewSolverStoreMemory`, the empty in-memory
store. -/
def NewSolverStoreMemory : SolverStoreMemory :=
  ⟨[], [], [], [], []⟩

namespace SolverStoreMemory

/-- Modelled from the spec: AddJobOffer of the in-memory backend. -/
def AddJobOffer (s : SolverStoreMemory) (jo : JobOfferContainer) :
    Except StoreError (JobOfferContainer × SolverStoreMemory) :=
  match memAdd (fun x => x.ID) s.jobOffers jo with
  | .error e => .error e
  | .ok (x, l) => .ok (x, { s with jobOffers := l })

/-- Modelled from the spec: GetJobOffer of the in-memory backend. -/
def GetJobOffer (s : SolverStoreMemory) (id : String) : Option JobOfferContainer :=
  memGet (fun x => x.ID) s.jobOffers id

/-- Modelled from the spec: UpdateJobOfferState sets the DealID and State facets. -/
def UpdateJobOfferState (s : SolverStoreMemory) (id dealID : String) (state : Nat) :
    Except StoreError (JobOfferContainer × SolverStoreMemory) :=
  match memUpdate (fun x => x.ID) (fun x => { x with DealID := dealID, State := state })
      s.jobOffers id with
  | .error e => .error e
  | .ok (x, l) => .ok (x, { s with jobOffers := l })

/-- Modelled from the spec: RemoveJobOffer of the in-memory backend. -/
def RemoveJobOffer (s : SolverStoreMemory) (id : String) :
    Except StoreError SolverStoreMemory :=
  match memRemove (fun x => x.ID) s.jobOffers id with
  | .error e => .error e
  | .ok l => .ok { s with jobOffers := l }

/-- Modelled from the spec: GetJobOffers applies the query predicate. -/
def GetJobOffers (s : SolverStoreMemory) (q : GetJobOffersQuery) :
    List JobOfferContainer :=
  s.jobOffers.filter (matchesJobOffer q)

/-- Modelled from the spec: AddResourceOffer of the in-memory backend. -/
def AddResourceOffer (s : SolverStoreMemory) (ro : ResourceOfferContainer) :
    Except StoreError (ResourceOfferContainer × SolverStoreMemory) :=
  match memAdd (fun x => x.ID) s.resourceOffers ro with
  | .error e => .error e
  | .ok (x, l) => .ok (x, { s with resourceOffers := l })

/-- Modelled from the spec: GetResourceOffer of the in-memory backend. -/
def GetResourceOffer (s : SolverStoreMemory) (id : String) :
    Option ResourceOfferContainer :=
  memGet (fun x => x.ID) s.resourceOffers id

/-- Modelled from the spec: secondary lookup of the current offer for a provider
address, with the same nil-on-absence contract. -/
def GetResourceOfferByAddress (s : SolverStoreMemory) (addr : String) :
    Option ResourceOfferContainer :=
  s.resourceOffers.find? (fun x => x.ResourceProvider == addr)

/-- Modelled from the spec: UpdateResourceOfferState sets the DealID and State
facets. -/
def UpdateResourceOfferState (s : SolverStoreMemory) (id dealID : String) (state : Nat) :
    Except StoreError (ResourceOfferContainer × SolverStoreMemory) :=
  match memUpdate (fun x => x.ID) (fun x => { x with DealID := dealID, State := state })
      s.resourceOffers id with
  | .error e => .error e
  | .ok (x, l) => .ok (x, { s with resourceOffers := l })

/-- Modelled from the spec: RemoveResourceOffer of the in-memory backend. -/
def RemoveResourceOffer (s : SolverStoreMemory) (id : String) :
    Except StoreError SolverStoreMemory :=
  match memRemove (fun x => x.ID) s.resourceOffers id with
  | .error e => .error e
  | .ok l => .ok { s with resourceOffers := l }

/-- Modelled from the spec: GetResourceOffers applies the query predicate. -/
def GetResourceOffers (s : SolverStoreMemory) (q : GetResourceOffersQuery) :
    List ResourceOfferContainer :=
  s.resourceOffers.filter (matchesResourceOffer q)

/-- Modelled from the spec: AddDeal of the in-memory backend. -/
def AddDeal (s : SolverStoreMemory) (d : DealContainer) :
    Except StoreError (DealContainer × SolverStoreMemory) :=
  match memAdd (fun x => x.ID) s.deals d with
  | .error e => .error e
  | .ok (x, l) => .ok (x, { s with deals := l })

/-- Modelled from the spec: GetDeal of the in-memory backend. -/
def GetDeal (s : SolverStoreMemory) (id : String) : Option DealContainer :=
  memGet (fun x => x.ID) s.deals id

/-- Modelled from the spec: GetDeals applies the query predicate. -/
def GetDeals (s : SolverStoreMemory) (q : GetDealsQuery) : List DealContainer :=
  s.deals.filter (matchesDeal q)

/-- Modelled from the spec: GetDealsAll returns every current deal. -/
def GetDealsAll (s : SolverStoreMemory) : List DealContainer :=
  s.deals

/-- Modelled from the spec: UpdateDealState updates the State facet only. -/
def UpdateDealState (s : SolverStoreMemory) (id : String) (state : Nat) :
    Except StoreError (DealContainer × SolverStoreMemory) :=
  match memUpdate (fun x => x.ID) (fun d => { d with State := state }) s.deals id with
  | .error e => .error e
  | .ok (x, l) => .ok (x, { s with deals := l })

/-- Modelled from the spec: UpdateDealMediator updates the Mediator facet only. -/
def UpdateDealMediator (s : SolverStoreMemory) (id m : String) :
    Except StoreError (DealContainer × SolverStoreMemory) :=
  match memUpdate (fun x => x.ID) (fun d => { d with Mediator := m }) s.deals id with
  | .error e => .error e
  | .ok (x, l) => .ok (x, { s with deals := l })

/-- Modelled from the spec: UpdateDealTransactionsJobCreator updates the job
creator's transaction sub-record only. -/
def UpdateDealTransactionsJobCreator (s : SolverStoreMemory) (id : String)
    (tx : DealTransactionsJobCreator) :
    Except StoreError (DealContainer × SolverStoreMemory) :=
  match memUpdate (fun x => x.ID)
      (fun d => { d with Transactions := { d.Transactions with JobCreator := tx } })
      s.deals id with
  | .error e => .error e
  | .ok (x, l) => .ok (x, { s with deals := l })

/-- Modelled from the spec: UpdateDealTransactionsResourceProvider updates the
resource provider's transaction sub-record only. -/
def UpdateDealTransactionsResourceProvider (s : SolverStoreMemory) (id : String)
    (tx : DealTransactionsResourceProvider) :
    Except StoreError (DealContainer × SolverStoreMemory) :=
  match memUpdate (fun x => x.ID)
      (fun d => { d with Transactions := { d.Transactions with ResourceProvider := tx } })
      s.deals id with
  | .error e => .error e
  | .ok (x, l) => .ok (x, { s with deals := l })

/-- Modelled from the spec: UpdateDealTransactionsMediator updates the mediator's
transaction sub-record only. -/
def UpdateDealTransactionsMediator (s : SolverStoreMemory) (id : String)
    (tx : DealTransactionsMediator) :
    Except StoreError (DealContainer × SolverStoreMemory) :=
  match memUpdate (fun x => x.ID)
      (fun d => { d with Transactions := { d.Transactions with Mediator := tx } })
      s.deals id with
  | .error e => .error e
  | .ok (x, l) => .ok (x, { s with deals := l })

/-- Modelled from the spec: RemoveDeal of the in-memory backend. -/
def RemoveDeal (s : SolverStoreMemory) (id : String) :
    Except StoreError SolverStoreMemory :=
  match memRemove (fun x => x.ID) s.deals id with
  | .error e => .error e
  | .ok l => .ok { s with deals := l }

/-- Modelled from the spec: AddResult; results are keyed by DealID, not by their own
ID. -/
def AddResult (s : SolverStoreMemory) (r : Result) :
    Except StoreError (Result × SolverStoreMemory) :=
  match memAdd (fun x => x.DealID) s.results r with
  | .error e => .error e
  | .ok (x, l) => .ok (x, { s with results := l })

/-- Modelled from the spec: GetResult by DealID. -/
def GetResult (s : SolverStoreMemory) (dealID : String) : Option Result :=
  memGet (fun x => x.DealID) s.results dealID

/-- Modelled from the spec: GetResults returns every current result. -/
def GetResults (s : SolverStoreMemory) : List Result :=
  s.results

/-- Modelled from the spec: RemoveResult by DealID. -/
def RemoveResult (s : SolverStoreMemory) (dealID : String) :
    Except StoreError SolverStoreMemory :=
  match memRemove (fun x => x.DealID) s.results dealID with
  | .error e => .error e
  | .ok l => .ok { s with results := l }

/-- Modelled from the spec: AddMatchDecision computes the MatchID and upserts (any
existing decision for the same unordered pair is replaced); it never fails, and
returns the stored decision. -/
def AddMatchDecision (s : SolverStoreMemory) (resourceOffer jobOffer deal : String)
    (result : Bool) : Except StoreError (MatchDecision × SolverStoreMemory) :=
  let d : MatchDecision := ⟨resourceOffer, jobOffer, deal, result⟩
  .ok (d, { s with matchDecisions :=
    (s.matchDecisions.filter
      (fun x => !(GetMatchID x.ResourceOffer x.JobOffer == GetMatchID resourceOffer jobOffer)))
      ++ [d] })

/-- Modelled from the spec: GetMatchDecision looks the pair up by its MatchID, with
the nil-on-absence contract. -/
def GetMatchDecision (s : SolverStoreMemory) (resourceOffer jobOffer : String) :
    Option MatchDecision :=
  s.matchDecisions.find?
    (fun x => GetMatchID x.ResourceOffer x.JobOffer == GetMatchID resourceOffer jobOffer)

/-- Modelled from the spec: GetMatchDecisions returns every current decision. -/
def GetMatchDecisions (s : SolverStoreMemory) : List MatchDecision :=
  s.matchDecisions

/-- Modelled from the spec: RemoveMatchDecision deletes every decision matching the
wildcard arguments; it never fails (deleting nothing is a no-op), and removing with
both arguments empty is treated as a no-op. -/
def RemoveMatchDecision (s : SolverStoreMemory) (resourceOffer jobOffer : String) :
    Except StoreError SolverStoreMemory :=
  if resourceOffer == "" && jobOffer == "" then .ok s
  else .ok { s with matchDecisions :=
    s.matchDecisions.filter (fun x => !(matchesWildcard resourceOffer jobOffer x)) }

end SolverStoreMemory

/-- Generic Add over a durable table keyed by `k`: fails with Duplicate when a row
with the same primary key exists, otherwise inserts the row. -/
def dbAdd {α : Type} (k : α → String) (rows : List (String × α)) (x : α) :
    Except StoreError (α × List (String × α)) :=
  if rows.any (fun r => r.1 == k x) then .error .duplicate
  else .ok (x, rows ++ [(k x, x)])

/-- Generic Get over a durable table: looks the primary key up; absence is `none`. -/
def dbGet {α : Type} (rows : List (String × α)) (id : String) : Option α :=
  (rows.find? (fun r => r.1 == id)).map Prod.snd

/-- Generic Remove over a durable table: deletes the row with the given primary key,
NotFound if absent. -/
def dbRemove {α : Type} (rows : List (String × α)) (id : String) :
    Except StoreError (List (String × α)) :=
  if rows.any (fun r => r.1 == id) then .ok (rows.filter (fun r => !(r.1 == id)))
  else .error .notFound

/-- Generic field-level Update over a durable table: rewrites the row with the given
primary key through `g`, returning the full updated record; NotFound if absent. -/
def dbUpdate {α : Type} (g : α → α) (rows : List (String × α)) (id : String) :
    Except StoreError (α × List (String × α)) :=
  match rows.find? (fun r => r.1 == id) with
  | none => .error .notFound
  | some r => .ok (g r.2, rows.map (fun r' => if r'.1 == id then (r'.1, g r'.2) else r'))

/-- Modelled from the spec: the durable backend `databasestore.SolverStoreDatabase`
(pkg/solver/store/db is not under src/): one table per entity kind, each row carrying
its primary key — job offers, resource offers and deals keyed by ID, results keyed by
deal ID, match decisions keyed by the composite (resource_offer_id, job_offer_id). -/
structure SolverStoreDatabase where
  jobOfferRows : List (String × JobOfferContainer)
  resourceOfferRows : List (String × ResourceOfferContainer)
  dealRows : List (String × DealContainer)
  resultRows : List (String × Result)
  matchDecisionRows : List ((String × String) × MatchDecision)
deriving DecidableEq

/-- Modelled from the spec: `databasestore.NewSolverStoreDatabase` with empty
tables. -/
def NewSolverStoreDatabase : SolverStoreDatabase :=
  ⟨[], [], [], [], []⟩

namespace SolverStoreDatabase

/-- Modelled from the spec: AddJobOffer of the durable backend. -/
def AddJobOffer (s : SolverStoreDatabase) (jo : JobOfferContainer) :
    Except StoreError (JobOfferContainer × SolverStoreDatabase) :=
  match dbAdd (fun x => x.ID) s.jobOfferRows jo with
  | .error e => .error e
  | .ok (x, rows) => .ok (x, { s with jobOfferRows := rows })

/-- Modelled from the spec: GetJobOffer of the durable backend. -/
def GetJobOffer (s : SolverStoreDatabase) (id : String) : Option JobOfferContainer :=
  dbGet s.jobOfferRows id

/-- Modelled from the spec: UpdateJobOfferState of the durable backend. -/
def UpdateJobOfferState (s : SolverStoreDatabase) (id dealID : String) (state : Nat) :
    Except StoreError (JobOfferContainer × SolverStoreDatabase) :=
  match dbUpdate (fun x => { x with DealID := dealID, State := state })
      s.jobOfferRows id with
  | .error e => .error e
  | .ok (x, rows) => .ok (x, { s with jobOfferRows := rows })

/-- Modelled from the spec: RemoveJobOffer of the durable backend. -/
def RemoveJobOffer (s : SolverStoreDatabase) (id : String) :
    Except StoreError SolverStoreDatabase :=
  match dbRemove s.jobOfferRows id with
  | .error e => .error e
  | .ok rows => .ok { s with jobOfferRows := rows }

/-- Modelled from the spec: GetJobOffers of the durable backend applies the shared
query predicate to the table's records. -/
def GetJobOffers (s : SolverStoreDatabase) (q : GetJobOffersQuery) :
    List JobOfferContainer :=
  (s.jobOfferRows.map Prod.snd).filter (matchesJobOffer q)

/-- Modelled from the spec: AddResourceOffer of the durable backend. -/
def AddResourceOffer (s : SolverStoreDatabase) (ro : ResourceOfferContainer) :
    Except StoreError (ResourceOfferContainer × SolverStoreDatabase) :=
  match dbAdd (fun x => x.ID) s.resourceOfferRows ro with
  | .error e => .error e
  | .ok (x, rows) => .ok (x, { s with resourceOfferRows := rows })

/-- Modelled from the spec: GetResourceOffer of the durable backend. -/
def GetResourceOffer (s : SolverStoreDatabase) (id : String) :
    Option ResourceOfferContainer :=
  dbGet s.resourceOfferRows id

/-- Modelled from the spec: secondary lookup by provider address in the durable
backend. -/
def GetResourceOfferByAddress (s : SolverStoreDatabase) (addr : String) :
    Option ResourceOfferContainer :=
  (s.resourceOfferRows.map Prod.snd).find? (fun x => x.ResourceProvider == addr)

/-- Modelled from the spec: UpdateResourceOfferState of the durable backend. -/
def UpdateResourceOfferState (s : SolverStoreDatabase) (id dealID : String) (state : Nat) :
    Except StoreError (ResourceOfferContainer × SolverStoreDatabase) :=
  match dbUpdate (fun x => { x with DealID := dealID, State := state })
      s.resourceOfferRows id with
  | .error e => .error e
  | .ok (x, rows) => .ok (x, { s with resourceOfferRows := rows })

/-- Modelled from the spec: RemoveResourceOffer of the durable backend. -/
def RemoveResourceOffer (s : SolverStoreDatabase) (id : String) :
    Except StoreError SolverStoreDatabase :=
  match dbRemove s.resourceOfferRows id with
  | .error e => .error e
  | .ok rows => .ok { s with resourceOfferRows := rows }

/-- Modelled from the spec: GetResourceOffers of the durable backend. -/
def GetResourceOffers (s : SolverStoreDatabase) (q : GetResourceOffersQuery) :
    List ResourceOfferContainer :=
  (s.resourceOfferRows.map Prod.snd).filter (matchesResourceOffer q)

/-- Modelled from the spec: AddDeal of the durable backend. -/
def AddDeal (s : SolverStoreDatabase) (d : DealContainer) :
    Except StoreError (DealContainer × SolverStoreDatabase) :=
  match dbAdd (fun x => x.ID) s.dealRows d with
  | .error e => .error e
  | .ok (x, rows) => .ok (x, { s with dealRows := rows })

/-- Modelled from the spec: GetDeal of the durable backend. -/
def GetDeal (s : SolverStoreDatabase) (id : String) : Option DealContainer :=
  dbGet s.dealRows id

/-- Modelled from the spec: GetDeals of the durable backend. -/
def GetDeals (s : SolverStoreDatabase) (q : GetDealsQuery) : List DealContainer :=
  (s.dealRows.map Prod.snd).filter (matchesDeal q)

/-- Modelled from the spec: GetDealsAll of the durable backend. -/
def GetDealsAll (s : SolverStoreDatabase) : List DealContainer :=
  s.dealRows.map Prod.snd

/-- Modelled from the spec: UpdateDealState of the durable backend. -/
def UpdateDealState (s : SolverStoreDatabase) (id : String) (state : Nat) :
    Except StoreError (DealContainer × SolverStoreDatabase) :=
  match dbUpdate (fun d => { d with State := state }) s.dealRows id with
  | .error e => .error e
  | .ok (x, rows) => .ok (x, { s with dealRows := rows })

/-- Modelled from the spec: UpdateDealMediator of the durable backend. -/
def UpdateDealMediator (s : SolverStoreDatabase) (id m : String) :
    Except StoreError (DealContainer × SolverStoreDatabase) :=
  match dbUpdate (fun d => { d with Mediator := m }) s.dealRows id with
  | .error e => .error e
  | .ok (x, rows) => .ok (x, { s with dealRows := rows })

/-- Modelled from the spec: UpdateDealTransactionsJobCreator of the durable
backend. -/
def UpdateDealTransactionsJobCreator (s : SolverStoreDatabase) (id : String)
    (tx : DealTransactionsJobCreator) :
    Except StoreError (DealContainer × SolverStoreDatabase) :=
  match dbUpdate
      (fun d => { d with Transactions := { d.Transactions with JobCreator := tx } })
      s.dealRows id with
  | .error e => .error e
  | .ok (x, rows) => .ok (x, { s with dealRows := rows })

/-- Modelled from the spec: UpdateDealTransactionsResourceProvider of the durable
backend. -/
def UpdateDealTransactionsResourceProvider (s : SolverStoreDatabase) (id : String)
    (tx : DealTransactionsResourceProvider) :
    Except StoreError (DealContainer × SolverStoreDatabase) :=
  match dbUpdate
      (fun d => { d with Transactions := { d.Transactions with ResourceProvider := tx } })
      s.dealRows id with
  | .error e => .error e
  | .ok (x, rows) => .ok (x, { s with dealRows := rows })

/-- Modelled from the spec: UpdateDealTransactionsMediator of the durable backend. -/
def UpdateDealTransactionsMediator (s : SolverStoreDatabase) (id : String)
    (tx : DealTransactionsMediator) :
    Except StoreError (DealContainer × SolverStoreDatabase) :=
  match dbUpdate
      (fun d => { d with Transactions := { d.Transactions with Mediator := tx } })
      s.dealRows id with
  | .error e => .error e
  | .ok (x, rows) => .ok (x, { s with dealRows := rows })

/-- Modelled from the spec: RemoveDeal of the durable backend. -/
def RemoveDeal (s : SolverStoreDatabase) (id : String) :
    Except StoreError SolverStoreDatabase :=
  match dbRemove s.dealRows id with
  | .error e => .error e
  | .ok rows => .ok { s with dealRows := rows }

/-- Modelled from the spec: AddResult of the durable backend; the results table is
keyed by deal ID. -/
def AddResult (s : SolverStoreDatabase) (r : Result) :
    Except StoreError (Result × SolverStoreDatabase) :=
  match dbAdd (fun x => x.DealID) s.resultRows r with
  | .error e => .error e
  | .ok (x, rows) => .ok (x, { s with resultRows := rows })

/-- Modelled from the spec: GetResult of the durable backend, by deal ID. -/
def GetResult (s : SolverStoreDatabase) (dealID : String) : Option Result :=
  dbGet s.resultRows dealID

/-- Modelled from the spec: GetResults of the durable backend. -/
def GetResults (s : SolverStoreDatabase) : List Result :=
  s.resultRows.map Prod.snd

/-- Modelled from the spec: RemoveResult of the durable backend. -/
def RemoveResult (s : SolverStoreDatabase) (dealID : String) :
    Except StoreError SolverStoreDatabase :=
  match dbRemove s.resultRows dealID with
  | .error e => .error e
  | .ok rows => .ok { s with resultRows := rows }

/-- Modelled from the spec: AddMatchDecision of the durable backend upserts the row
whose composite key carries the same unordered pair; it never fails. -/
def AddMatchDecision (s : SolverStoreDatabase) (resourceOffer jobOffer deal : String)
    (result : Bool) : Except StoreError (MatchDecision × SolverStoreDatabase) :=
  let d : MatchDecision := ⟨resourceOffer, jobOffer, deal, result⟩
  .ok (d, { s with matchDecisionRows :=
    (s.matchDecisionRows.filter
      (fun r => !(GetMatchID r.1.1 r.1.2 == GetMatchID resourceOffer jobOffer)))
      ++ [((resourceOffer, jobOffer), d)] })

/-- Modelled from the spec: GetMatchDecision of the durable backend looks the row up
by the unordered pair's MatchID. -/
def GetMatchDecision (s : SolverStoreDatabase) (resourceOffer jobOffer : String) :
    Option MatchDecision :=
  (s.matchDecisionRows.find?
    (fun r => GetMatchID r.1.1 r.1.2 == GetMatchID resourceOffer jobOffer)).map Prod.snd

/-- Modelled from the spec: GetMatchDecisions of the durable backend. -/
def GetMatchDecisions (s : SolverStoreDatabase) : List MatchDecision :=
  s.matchDecisionRows.map Prod.snd

/-- Modelled from the spec: RemoveMatchDecision of the durable backend deletes every
row whose composite key matches the wildcard arguments; both arguments empty is a
no-op, and it never fails. -/
def RemoveMatchDecision (s : SolverStoreDatabase) (resourceOffer jobOffer : String) :
    Except StoreError SolverStoreDatabase :=
  if resourceOffer == "" && jobOffer == "" then .ok s
  else .ok { s with matchDecisionRows :=
    (s.matchDecisionRows.filter
      (fun r => !((resourceOffer == "" || r.1.1 == resourceOffer)
                   && (jobOffer == "" || r.1.2 == jobOffer)))) }

end SolverStoreDatabase

/-- One operation of the shared store contract (the mutating calls a conformance
scenario may issue, per spec sections 4 and 8). -/
inductive StoreOp where
  | addJobOffer (jo : JobOfferContainer)
  | updateJobOfferState (id dealID : String) (state : Nat)
  | removeJobOffer (id : String)
  | addResourceOffer (ro : ResourceOfferContainer)
  | updateResourceOfferState (id dealID : String) (state : Nat)
  | removeResourceOffer (id : String)
  | addDeal (d : DealContainer)
  | updateDealState (id : String) (state : Nat)
  | updateDealMediator (id m : String)
  | updateDealTransactionsJobCreator (id : String) (tx : DealTransactionsJobCreator)
  | updateDealTransactionsResourceProvider (id : String) (tx : DealTransactionsResourceProvider)
  | updateDealTransactionsMediator (id : String) (tx : DealTransactionsMediator)
  | removeDeal (id : String)
  | addResult (r : Result)
  | removeResult (dealID : String)
  | addMatchDecision (resourceOffer jobOffer deal : String) (result : Bool)
  | removeMatchDecision (resourceOffer jobOffer : String)

/-- Final state of a call returning a record and a new state: a failed call leaves
the store unchanged. -/
def afterPair {α σ : Type} (s : σ) : Except StoreError (α × σ) → σ
  | .ok (_, s') => s'
  | .error _ => s

/-- Final state of a call returning only a new state: a failed call leaves the store
unchanged. -/
def afterRemove {σ : Type} (s : σ) : Except StoreError σ → σ
  | .ok s' => s'
  | .error _ => s

/-- Applies one contract operation to the in-memory backend. -/
def SolverStoreMemory.applyOp (s : SolverStoreMemory) : StoreOp → SolverStoreMemory
  | .addJobOffer jo => afterPair s (s.AddJobOffer jo)
  | .updateJobOfferState id dealID st => afterPair s (s.UpdateJobOfferState id dealID st)
  | .removeJobOffer id => afterRemove s (s.RemoveJobOffer id)
  | .addResourceOffer ro => afterPair s (s.AddResourceOffer ro)
  | .updateResourceOfferState id dealID st =>
      afterPair s (s.UpdateResourceOfferState id dealID st)
  | .removeResourceOffer id => afterRemove s (s.RemoveResourceOffer id)
  | .addDeal d => afterPair s (s.AddDeal d)
  | .updateDealState id st => afterPair s (s.UpdateDealState id st)
  | .updateDealMediator id m => afterPair s (s.UpdateDealMediator id m)
  | .updateDealTransactionsJobCreator id tx =>
      afterPair s (s.UpdateDealTransactionsJobCreator id tx)
  | .updateDealTransactionsResourceProvider id tx =>
      afterPair s (s.UpdateDealTransactionsResourceProvider id tx)
  | .updateDealTransactionsMediator id tx =>
      afterPair s (s.UpdateDealTransactionsMediator id tx)
  | .removeDeal id => afterRemove s (s.RemoveDeal id)
  | .addResult r => afterPair s (s.AddResult r)
  | .removeResult dealID => afterRemove s (s.RemoveResult dealID)
  | .addMatchDecision ro jo deal res => afterPair s (s.AddMatchDecision ro jo deal res)
  | .removeMatchDecision ro jo => afterRemove s (s.RemoveMatchDecision ro jo)

/-- Applies one contract operation to the durable backend. -/
def SolverStoreDatabase.applyOp (s : SolverStoreDatabase) : StoreOp → SolverStoreDatabase
  | .addJobOffer jo => afterPair s (s.AddJobOffer jo)
  | .updateJobOfferState id dealID st => afterPair s (s.UpdateJobOfferState id dealID st)
  | .removeJobOffer id => afterRemove s (s.RemoveJobOffer id)
  | .addResourceOffer ro => afterPair s (s.AddResourceOffer ro)
  | .updateResourceOfferState id dealID st =>
      afterPair s (s.UpdateResourceOfferState id dealID st)
  | .removeResourceOffer id => afterRemove s (s.RemoveResourceOffer id)
  | .addDeal d => afterPair s (s.AddDeal d)
  | .updateDealState id st => afterPair s (s.UpdateDealState id st)
  | .updateDealMediator id m => afterPair s (s.UpdateDealMediator id m)
  | .updateDealTransactionsJobCreator id tx =>
      afterPair s (s.UpdateDealTransactionsJobCreator id tx)
  | .updateDealTransactionsResourceProvider id tx =>
      afterPair s (s.UpdateDealTransactionsResourceProvider id tx)
  | .updateDealTransactionsMediator id tx =>
      afterPair s (s.UpdateDealTransactionsMediator id tx)
  | .removeDeal id => afterRemove s (s.RemoveDeal id)
  | .addResult r => afterPair s (s.AddResult r)
  | .removeResult dealID => afterRemove s (s.RemoveResult dealID)
  | .addMatchDecision ro jo deal res => afterPair s (s.AddMatchDecision ro jo deal res)
  | .removeMatchDecision ro jo => afterRemove s (s.RemoveMatchDecision ro jo)

/-- Runs a conformance scenario, a sequence of contract operations, against the
in-memory backend starting from the empty store. -/
def runMemory (ops : List StoreOp) : SolverStoreMemory :=
  ops.foldl SolverStoreMemory.applyOp NewSolverStoreMemory

/-- Runs the same scenario against the durable backend starting from empty tables. -/
def runDatabase (ops : List StoreOp) : SolverStoreDatabase :=
  ops.foldl SolverStoreDatabase.applyOp NewSolverStoreDatabase

/-- A durable table keyed by `k` represents an in-memory collection: the rows'
records are the collection in order and every row carries its record's key. -/
def TableSim {α : Type} (k : α → String) (rows : List (String × α)) (l : List α) : Prop :=
  rows.map Prod.snd = l ∧ ∀ r ∈ rows, r.1 = k r.2

/-- The match-decision table represents the in-memory ledger: rows' records are the
ledger in order and every row's composite key is its record's offer-id pair. -/
def MatchTableSim (rows : List ((String × String) × MatchDecision))
    (l : List MatchDecision) : Prop :=
  rows.map Prod.snd = l ∧ ∀ r ∈ rows, r.1 = (r.2.ResourceOffer, r.2.JobOffer)

/-- The durable backend state represents the in-memory backend state, collection by
collection. -/
def Sim (m : SolverStoreMemory) (d : SolverStoreDatabase) : Prop :=
  TableSim (fun x => x.ID) d.jobOfferRows m.jobOffers
    ∧ TableSim (fun x => x.ID) d.resourceOfferRows m.resourceOffers
    ∧ TableSim (fun x => x.ID) d.dealRows m.deals
    ∧ TableSim (fun x => x.DealID) d.resultRows m.results
    ∧ MatchTableSim d.matchDecisionRows m.matchDecisions

/-- The ledger's derived keys: one MatchID per stored decision. -/
def ledgerKeys (l : List MatchDecision) : List String :=
  l.map (fun d => GetMatchID d.ResourceOffer d.JobOffer)

/-- A concrete deal used by witnesses. -/
def sampleDeal : DealContainer :=
  ⟨"k", "jc", "rp", "md", 0, ⟨⟨"", "", "", "", "", ""⟩, ⟨"", "", "", "", ""⟩, ⟨"", ""⟩⟩⟩

/-- A concrete store whose every keyed collection holds one record with key "k". -/
def sampleStore : SolverStoreMemory :=
  ⟨[⟨"k", "c", "", 0⟩], [⟨"k", "p", "", 0⟩], [sampleDeal], [⟨"k", "r"⟩], []⟩

/-- A concrete store holding one match decision. -/
def sampleDecisionStore : SolverStoreMemory :=
  ⟨[], [], [], [], [⟨"r1", "j1", "d1", true⟩]⟩



theorem charListLe_total : ∀ as bs : List Char, charListLe as bs = true ∨ charListLe bs as = true := by
  intro as
  induction as with
  | nil => intro bs; left; rfl
  | cons a at' ih =>
    intro bs
    cases bs with
    | nil => right; rfl
    | cons b bt =>
      by_cases h1 : a.toNat < b.toNat
      · left; simp [charListLe, h1]
      · by_cases h2 : b.toNat < a.toNat
        · right; simp [charListLe, h1, h2]
        · rcases ih bt with h | h
          · left; simpa [charListLe, h1, h2] using h
          · right; simpa [charListLe, h1, h2] using h

theorem charListLe_antisymm : ∀ as bs : List Char,
    charListLe as bs = true → charListLe bs as = true → as = bs := by
  intro as
  induction as with
  | nil =>
    intro bs h1 h2
    cases bs with
    | nil => rfl
    | cons b bt => simp [charListLe] at h2
  | cons a at' ih =>
    intro bs h1 h2
    cases bs with
    | nil => simp [charListLe] at h1
    | cons b bt =>
      by_cases hab : a.toNat < b.toNat
      · have : ¬ b.toNat < a.toNat := Nat.lt_asymm hab
        simp [charListLe, this, hab] at h2
      · by_cases hba : b.toNat < a.toNat
        · simp [charListLe, hab, hba] at h1
        · have heq : a = b := by
            apply Char.eq_of_val_eq
            exact UInt32.toNat.inj (Nat.le_antisymm (Nat.not_lt.mp hba) (Nat.not_lt.mp hab))
          subst heq
          simp only [charListLe, if_neg hab] at h1 h2
          exact congrArg (a :: ·) (ih bt h1 h2)

theorem strLe_total (a b : String) : strLe a b = true ∨ strLe b a = true :=
  charListLe_total a.data b.data

theorem strLe_antisymm {a b : String} (h1 : strLe a b = true) (h2 : strLe b a = true) :
    a = b := by
  cases a; cases b
  exact congrArg String.mk (charListLe_antisymm _ _ h1 h2)

/-- Claim C2: the derived match key is order-independent — for all offer ids a and b,
GetMatchID a b = GetMatchID b a, so the same unordered pair always maps to the same
key regardless of which id is passed first (determinism in the remaining arguments
is definitional: GetMatchID is a function). -/
theorem getMatchID_order_independent (a b : String) : GetMatchID a b = GetMatchID b a := by
  unfold GetMatchID
  by_cases h1 : strLe a b = true
  · by_cases h2 : strLe b a = true
    · have := strLe_antisymm h1 h2; subst this; rfl
    · simp [h1, h2]
  · rcases strLe_total a b with h | h2
    · exact absurd h h1
    · simp [h1, h2]


theorem find?_append_left_none {α : Type} {p : α → Bool} {l1 l2 : List α}
    (h : ∀ x ∈ l1, p x = false) : (l1 ++ l2).find? p = l2.find? p := by
  induction l1 with
  | nil => rfl
  | cons a t ih =>
    have ha := h a (List.mem_cons_self a t)
    simp only [List.cons_append, List.find?, ha]
    exact ih (fun x hx => h x (List.mem_cons_of_mem a hx))

theorem find?_filter_compl {α : Type} (p q : α → Bool) (l : List α)
    (h : ∀ x, p x = true → q x = false) : (l.filter p).find? q = none := by
  apply List.find?_eq_none.mpr
  intro x hx
  have hm := List.mem_filter.mp hx
  simp [h x hm.2]

theorem any_filter_compl {α : Type} (p q : α → Bool) (l : List α)
    (h : ∀ x, p x = true → q x = false) : (l.filter p).any q = false := by
  by_contra hc
  rcases List.any_eq_true.mp (Bool.of_not_eq_false hc) with ⟨x, hx, hqx⟩
  have hm := List.mem_filter.mp hx
  rw [h x hm.2] at hqx
  exact Bool.false_ne_true hqx

/-- Claim C4: for a store holding one JobOffer in the default state and one in the
Cancelled state, the zero-value query (all filter fields zero, in particular
IncludeCancelled = false) returns only the non-cancelled offer, and the same query
with IncludeCancelled = true returns both. -/
theorem jobOfferQueryDefaultExcludesCancelled
    (jo1 jo2 : JobOfferContainer)
    (h1 : jo1.State = GetDefaultAgreementState)
    (h2 : jo2.State = jobOfferCancelledState)
    (s : SolverStoreMemory) (hs : s.jobOffers = [jo1, jo2]) :
    s.GetJobOffers {} = [jo1]
      ∧ s.GetJobOffers { IncludeCancelled := true } = [jo1, jo2] := by
  have hne : (GetDefaultAgreementState == jobOfferCancelledState) = false := by decide
  unfold SolverStoreMemory.GetJobOffers
  rw [hs]
  constructor
  · simp [matchesJobOffer, List.filter, h1, h2, hne]
  · simp [matchesJobOffer, List.filter, h1, h2]

/-- Claim C5: GetResourceOffers applies its present filters conjunctively — a query
setting ResourceProvider, NotMatched and Active returns exactly the stored offers
whose provider matches exactly, whose DealID is empty, and whose State is strictly
before ResultsSubmitted; over the state enumeration, exactly DealNegotiating and
DealAgreed are strictly before ResultsSubmitted, so those two are included and
ResultsSubmitted with all later states are excluded. -/
theorem resourceOfferCombinedFilter (s : SolverStoreMemory) (p : String) (hp : p ≠ "")
    (ro : ResourceOfferContainer) :
    (ro ∈ s.GetResourceOffers { ResourceProvider := p, NotMatched := true, Active := true }
      ↔ ro ∈ s.resourceOffers ∧ ro.ResourceProvider = p ∧ ro.DealID = ""
          ∧ ro.State < resultsSubmittedState)
    ∧ (∀ name ∈ AgreementState,
        (GetAgreementStateIndex name < resultsSubmittedState
          ↔ (name = "DealNegotiating" ∨ name = "DealAgreed"))) := by
  constructor
  · unfold SolverStoreMemory.GetResourceOffers
    rw [List.mem_filter]
    have hpb : (p == "") = false := by simpa using hp
    simp [matchesResourceOffer, hpb, and_assoc]
  · decide

/-- Claim C9, counterexample: the claim that every state name the query engine
resolves belongs to the ten-member on-chain enumeration is false — the name
"JobOfferCancelled", whose code `jobOfferCancelledState` the job-offer
IncludeCancelled filter compares against (and which the store test resolves), is not
a member of the ten-member enumeration of src/pkg/http/types.go, and its code is not
the code of any of the ten states. -/
theorem cancelledStateOutsideOnChainEnum :
    "JobOfferCancelled" ∉ onChainAgreementStateNames
      ∧ ∀ name ∈ onChainAgreementStateNames,
          GetAgreementStateIndex name ≠ jobOfferCancelledState := by decide

/-- Claim C9, amended: every state name the store's query engine resolves belongs to
the agreement-state enumeration consisting of the ten on-chain states extended with
the cancellation state JobOfferCancelled; the names resolved by the filters
themselves (ResultsSubmitted for Active, DealNegotiating for the default state) are
among the ten, while the Cancelled code used by the IncludeCancelled filter is the
code of JobOfferCancelled, which lies just outside the ten-member on-chain
enumeration. -/
theorem agreementStateEnumeration :
    AgreementState = onChainAgreementStateNames ++ ["JobOfferCancelled"]
      ∧ "ResultsSubmitted" ∈ onChainAgreementStateNames
      ∧ "DealNegotiating" ∈ onChainAgreementStateNames
      ∧ "JobOfferCancelled" ∈ AgreementState
      ∧ jobOfferCancelledState = onChainAgreementStateNames.length := by
  exact ⟨rfl, by decide, by decide, by decide, by decide⟩

theorem memRemove_ok {α : Type} (k : α → String) (l : List α) (id : String)
    {l' : List α} (h : memRemove k l id = .ok l') :
    l'.find? (fun y => k y == id) = none
      ∧ memRemove k l' id = .error .notFound := by
  unfold memRemove at h
  split at h
  case isTrue hc =>
    have hl' : l' = l.filter (fun y => !(k y == id)) := by
      cases h; rfl
    subst hl'
    have hcompl : ∀ x, (!(k x == id)) = true → (k x == id) = false := by
      intro x hx
      cases hk : (k x == id)
      · rfl
      · rw [hk] at hx; exact absurd hx (by simp)
    refine ⟨find?_filter_compl _ _ _ hcompl, ?_⟩
    unfold memRemove
    rw [any_filter_compl _ _ _ hcompl]
    simp
  case isFalse hc => exact Except.noConfusion h

theorem memGet_absent {α : Type} (k : α → String) (l : List α) (id : String)
    (h : ∀ x ∈ l, k x ≠ id) : memGet k l id = none := by
  apply List.find?_eq_none.mpr
  intro x hx
  simp [h x hx]

/-- Claim C6: for every keyed entity collection (job offers, resource offers, deals,
results), after Remove(id) succeeds Get(id) returns none with no error, and a second
Remove(id) fails with NotFound; in general Get on an absent key returns none rather
than an error. -/
theorem entityDeleteThenAbsent (s : SolverStoreMemory) (id : String) :
    (∀ s', s.RemoveJobOffer id = .ok s' →
        s'.GetJobOffer id = none ∧ s'.RemoveJobOffer id = .error .notFound)
    ∧ (∀ s', s.RemoveResourceOffer id = .ok s' →
        s'.GetResourceOffer id = none ∧ s'.RemoveResourceOffer id = .error .notFound)
    ∧ (∀ s', s.RemoveDeal id = .ok s' →
        s'.GetDeal id = none ∧ s'.RemoveDeal id = .error .notFound)
    ∧ (∀ s', s.RemoveResult id = .ok s' →
        s'.GetResult id = none ∧ s'.RemoveResult id = .error .notFound)
    ∧ ((∀ x ∈ s.jobOffers, x.ID ≠ id) → s.GetJobOffer id = none)
    ∧ ((∀ x ∈ s.resourceOffers, x.ID ≠ id) → s.GetResourceOffer id = none)
    ∧ ((∀ x ∈ s.deals, x.ID ≠ id) → s.GetDeal id = none)
    ∧ ((∀ x ∈ s.results, x.DealID ≠ id) → s.GetResult id = none) := by
  refine ⟨?_, ?_, ?_, ?_,
    fun h => memGet_absent _ _ _ h, fun h => memGet_absent _ _ _ h,
    fun h => memGet_absent _ _ _ h, fun h => memGet_absent _ _ _ h⟩
  · intro s' h
    unfold SolverStoreMemory.RemoveJobOffer at h
    cases hm : memRemove (fun x => x.ID) s.jobOffers id with
    | error e => rw [hm] at h; exact Except.noConfusion h
    | ok l =>
      rw [hm] at h
      have hs' : s' = { s with jobOffers := l } := by cases h; rfl
      subst hs'
      have spec := memRemove_ok _ _ _ hm
      refine ⟨spec.1, ?_⟩
      unfold SolverStoreMemory.RemoveJobOffer
      rw [show memRemove (fun x => x.ID) l id = .error .notFound from spec.2]
  · intro s' h
    unfold SolverStoreMemory.RemoveResourceOffer at h
    cases hm : memRemove (fun x => x.ID) s.resourceOffers id with
    | error e => rw [hm] at h; exact Except.noConfusion h
    | ok l =>
      rw [hm] at h
      have hs' : s' = { s with resourceOffers := l } := by cases h; rfl
      subst hs'
      have spec := memRemove_ok _ _ _ hm
      refine ⟨spec.1, ?_⟩
      unfold SolverStoreMemory.RemoveResourceOffer
      rw [show memRemove (fun x => x.ID) l id = .error .notFound from spec.2]
  · intro s' h
    unfold SolverStoreMemory.RemoveDeal at h
    cases hm : memRemove (fun x => x.ID) s.deals id with
    | error e => rw [hm] at h; exact Except.noConfusion h
    | ok l =>
      rw [hm] at h
      have hs' : s' = { s with deals := l } := by cases h; rfl
      subst hs'
      have spec := memRemove_ok _ _ _ hm
      refine ⟨spec.1, ?_⟩
      unfold SolverStoreMemory.RemoveDeal
      rw [show memRemove (fun x => x.ID) l id = .error .notFound from spec.2]
  · intro s' h
    unfold SolverStoreMemory.RemoveResult at h
    cases hm : memRemove (fun x => x.DealID) s.results id with
    | error e => rw [hm] at h; exact Except.noConfusion h
    | ok l =>
      rw [hm] at h
      have hs' : s' = { s with results := l } := by cases h; rfl
      subst hs'
      have spec := memRemove_ok _ _ _ hm
      refine ⟨spec.1, ?_⟩
      unfold SolverStoreMemory.RemoveResult
      rw [show memRemove (fun x => x.DealID) l id = .error .notFound from spec.2]

theorem find?_map_update {α : Type} (k : α → String) (g : α → α) (l : List α) (id : String)
    (hg : ∀ x, k (g x) = k x) {y : α} (h : l.find? (fun x => k x == id) = some y) :
    (l.map (fun z => if k z == id then g z else z)).find? (fun x => k x == id)
      = some (g y) := by
  induction l with
  | nil => simp [List.find?] at h
  | cons a t ih =>
    cases hpa : (k a == id) with
    | true =>
      simp only [List.find?, hpa] at h
      injection h with h
      subst h
      simp [List.map, List.find?, hpa, hg a]
    | false =>
      simp only [List.find?, hpa] at h
      simpa [List.map, List.find?, hpa] using ih h

theorem memUpdate_found {α : Type} (k : α → String) (g : α → α) (l : List α) (id : String)
    (hg : ∀ x, k (g x) = k x) {y : α} (h : l.find? (fun x => k x == id) = some y) :
    memUpdate k g l id = .ok (g y, l.map (fun z => if k z == id then g z else z))
      ∧ (l.map (fun z => if k z == id then g z else z)).find? (fun x => k x == id)
          = some (g y) := by
  constructor
  · unfold memUpdate
    rw [h]
  · exact find?_map_update k g l id hg h

theorem memUpdate_notFound {α : Type} (k : α → String) (g : α → α) (l : List α) (id : String)
    (h : l.find? (fun y => k y == id) = none) : memUpdate k g l id = .error .notFound := by
  unfold memUpdate
  rw [h]

theorem updateDealFacet (s : SolverStoreMemory) (id : String)
    (g : DealContainer → DealContainer) (hg : ∀ x, (g x).ID = x.ID)
    {d : DealContainer} (hd : s.GetDeal id = some d) :
    ∃ l, memUpdate (fun x => x.ID) g s.deals id = .ok (g d, l)
      ∧ SolverStoreMemory.GetDeal { s with deals := l } id = some (g d) := by
  have hu := memUpdate_found (fun x : DealContainer => x.ID) g s.deals id hg hd
  exact ⟨_, hu.1, hu.2⟩

/-- Claim C7: each deal facet update (state, mediator, and the three per-role
transaction sub-records) returns the full updated record in which the named facet
holds the new value and every other field is unchanged (the result is exactly the
stored record with only that facet replaced), without the caller resupplying the
record; each facet update on an absent deal ID fails with NotFound. -/
theorem dealFacetUpdates (s : SolverStoreMemory) (id : String) :
    (∀ d, s.GetDeal id = some d →
      (∀ st, ∃ s', s.UpdateDealState id st = .ok ({ d with State := st }, s')
          ∧ s'.GetDeal id = some { d with State := st })
      ∧ (∀ m, ∃ s', s.UpdateDealMediator id m = .ok ({ d with Mediator := m }, s')
          ∧ s'.GetDeal id = some { d with Mediator := m })
      ∧ (∀ tx, ∃ s', s.UpdateDealTransactionsJobCreator id tx
            = .ok ({ d with Transactions := { d.Transactions with JobCreator := tx } }, s')
          ∧ s'.GetDeal id
              = some { d with Transactions := { d.Transactions with JobCreator := tx } })
      ∧ (∀ tx, ∃ s', s.UpdateDealTransactionsResourceProvider id tx
            = .ok ({ d with Transactions := { d.Transactions with ResourceProvider := tx } }, s')
          ∧ s'.GetDeal id
              = some { d with Transactions := { d.Transactions with ResourceProvider := tx } })
      ∧ (∀ tx, ∃ s', s.UpdateDealTransactionsMediator id tx
            = .ok ({ d with Transactions := { d.Transactions with Mediator := tx } }, s')
          ∧ s'.GetDeal id
              = some { d with Transactions := { d.Transactions with Mediator := tx } }))
    ∧ (s.GetDeal id = none →
      (∀ st, s.UpdateDealState id st = .error .notFound)
      ∧ (∀ m, s.UpdateDealMediator id m = .error .notFound)
      ∧ (∀ tx, s.UpdateDealTransactionsJobCreator id tx = .error .notFound)
      ∧ (∀ tx, s.UpdateDealTransactionsResourceProvider id tx = .error .notFound)
      ∧ (∀ tx, s.UpdateDealTransactionsMediator id tx = .error .notFound)) := by
  constructor
  · intro d hd
    refine ⟨fun st => ?_, fun m => ?_, fun tx => ?_, fun tx => ?_, fun tx => ?_⟩
    · obtain ⟨l, h1, h2⟩ := updateDealFacet s id
        (fun x => { x with State := st }) (fun x => rfl) hd
      refine ⟨{ s with deals := l }, ?_, h2⟩
      unfold SolverStoreMemory.UpdateDealState
      rw [h1]
    · obtain ⟨l, h1, h2⟩ := updateDealFacet s id
        (fun x => { x with Mediator := m }) (fun x => rfl) hd
      refine ⟨{ s with deals := l }, ?_, h2⟩
      unfold SolverStoreMemory.UpdateDealMediator
      rw [h1]
    · obtain ⟨l, h1, h2⟩ := updateDealFacet s id
        (fun x => { x with Transactions := { x.Transactions with JobCreator := tx } })
        (fun x => rfl) hd
      refine ⟨{ s with deals := l }, ?_, h2⟩
      unfold SolverStoreMemory.UpdateDealTransactionsJobCreator
      rw [h1]
    · obtain ⟨l, h1, h2⟩ := updateDealFacet s id
        (fun x => { x with Transactions := { x.Transactions with ResourceProvider := tx } })
        (fun x => rfl) hd
      refine ⟨{ s with deals := l }, ?_, h2⟩
      unfold SolverStoreMemory.UpdateDealTransactionsResourceProvider
      rw [h1]
    · obtain ⟨l, h1, h2⟩ := updateDealFacet s id
        (fun x => { x with Transactions := { x.Transactions with Mediator := tx } })
        (fun x => rfl) hd
      refine ⟨{ s with deals := l }, ?_, h2⟩
      unfold SolverStoreMemory.UpdateDealTransactionsMediator
      rw [h1]
  · intro hd
    refine ⟨fun st => ?_, fun m => ?_, fun tx => ?_, fun tx => ?_, fun tx => ?_⟩
    · unfold SolverStoreMemory.UpdateDealState
      rw [memUpdate_notFound (fun x : DealContainer => x.ID) _ s.deals id hd]
    · unfold SolverStoreMemory.UpdateDealMediator
      rw [memUpdate_notFound (fun x : DealContainer => x.ID) _ s.deals id hd]
    · unfold SolverStoreMemory.UpdateDealTransactionsJobCreator
      rw [memUpdate_notFound (fun x : DealContainer => x.ID) _ s.deals id hd]
    · unfold SolverStoreMemory.UpdateDealTransactionsResourceProvider
      rw [memUpdate_notFound (fun x : DealContainer => x.ID) _ s.deals id hd]
    · unfold SolverStoreMemory.UpdateDealTransactionsMediator
      rw [memUpdate_notFound (fun x : DealContainer => x.ID) _ s.deals id hd]

theorem eq_false_of_bnot {b : Bool} (h : (!b) = true) : b = false := by
  cases b
  · rfl
  · exact absurd h (by simp)

/-- Claim C8: for a store holding one MatchDecision for the pair (R, J), each of
Remove(R, ""), Remove("", J) and Remove(R, J) deletes that record — an empty-string
argument is a wildcard matching any value in that position — and afterwards
GetMatchDecision(R, J) returns none.  The two ids are assumed nonempty, since the
empty string is reserved as the wildcard. -/
theorem matchDecisionWildcardRemove (R J deal : String) (res : Bool)
    (hR : R ≠ "") (hJ : J ≠ "") (s : SolverStoreMemory)
    (hs : s.matchDecisions = [⟨R, J, deal, res⟩]) :
    (∃ s', s.RemoveMatchDecision R "" = .ok s' ∧ s'.GetMatchDecision R J = none)
    ∧ (∃ s', s.RemoveMatchDecision "" J = .ok s' ∧ s'.GetMatchDecision R J = none)
    ∧ (∃ s', s.RemoveMatchDecision R J = .ok s' ∧ s'.GetMatchDecision R J = none) := by
  have hRb : (R == "") = false := by simpa using hR
  have hJb : (J == "") = false := by simpa using hJ
  refine ⟨⟨{ s with matchDecisions :=
        s.matchDecisions.filter (fun x => !(matchesWildcard R "" x)) }, ?_, ?_⟩,
      ⟨{ s with matchDecisions :=
        s.matchDecisions.filter (fun x => !(matchesWildcard "" J x)) }, ?_, ?_⟩,
      ⟨{ s with matchDecisions :=
        s.matchDecisions.filter (fun x => !(matchesWildcard R J x)) }, ?_, ?_⟩⟩
  · unfold SolverStoreMemory.RemoveMatchDecision
    simp [hRb]
  · simp [SolverStoreMemory.GetMatchDecision, hs, matchesWildcard, hRb, List.filter, List.find?]
  · unfold SolverStoreMemory.RemoveMatchDecision
    simp [hJb]
  · simp [SolverStoreMemory.GetMatchDecision, hs, matchesWildcard, hJb, List.filter, List.find?]
  · unfold SolverStoreMemory.RemoveMatchDecision
    simp [hRb]
  · simp [SolverStoreMemory.GetMatchDecision, hs, matchesWildcard, hRb, hJb, List.filter, List.find?]

/-- Claim C10: RemoveMatchDecision returns no error when no stored decision matches
its arguments (including the wildcard forms): on a store with no matching decision
it succeeds as a no-op, returning the store unchanged — unlike entity Remove, which
fails with NotFound on a missing key. -/
theorem removeMatchDecisionAbsent (s : SolverStoreMemory) (r j : String)
    (h : ∀ d ∈ s.matchDecisions, matchesWildcard r j d = false) :
    s.RemoveMatchDecision r j = .ok s := by
  unfold SolverStoreMemory.RemoveMatchDecision
  by_cases hc : (r == "" && j == "") = true
  · rw [if_pos hc]
  · rw [if_neg hc]
    have hkeep : s.matchDecisions.filter (fun x => !(matchesWildcard r j x))
        = s.matchDecisions := by
      apply List.filter_eq_self.mpr
      intro a ha
      simp [h a ha]
    rw [hkeep]

theorem mapSndFind {κ α : Type} (rows : List (κ × α)) (pr : κ × α → Bool) (pv : α → Bool)
    (h : ∀ r ∈ rows, pr r = pv r.2) :
    (rows.find? pr).map Prod.snd = (rows.map Prod.snd).find? pv := by
  induction rows with
  | nil => rfl
  | cons r t ih =>
    have hr := h r (List.mem_cons_self r t)
    simp only [List.map_cons, List.find?]
    rw [← hr]
    cases hp : pr r
    · simpa using ih (fun x hx => h x (List.mem_cons_of_mem r hx))
    · simp

theorem mapSndAny {κ α : Type} (rows : List (κ × α)) (pr : κ × α → Bool) (pv : α → Bool)
    (h : ∀ r ∈ rows, pr r = pv r.2) :
    rows.any pr = (rows.map Prod.snd).any pv := by
  induction rows with
  | nil => rfl
  | cons r t ih =>
    have hr := h r (List.mem_cons_self r t)
    simp only [List.any_cons, List.map_cons]
    rw [hr, ih (fun x hx => h x (List.mem_cons_of_mem r hx))]

theorem mapSndFilter {κ α : Type} (rows : List (κ × α)) (pr : κ × α → Bool) (pv : α → Bool)
    (h : ∀ r ∈ rows, pr r = pv r.2) :
    (rows.filter pr).map Prod.snd = (rows.map Prod.snd).filter pv := by
  induction rows with
  | nil => rfl
  | cons r t ih =>
    have hr := h r (List.mem_cons_self r t)
    simp only [List.filter_cons, List.map_cons]
    rw [← hr]
    cases hp : pr r
    · simpa using ih (fun x hx => h x (List.mem_cons_of_mem r hx))
    · simpa using ih (fun x hx => h x (List.mem_cons_of_mem r hx))

theorem mapSndUpdate {κ α : Type} (rows : List (κ × α)) (pr : κ × α → Bool) (pv : α → Bool)
    (g : α → α) (h : ∀ r ∈ rows, pr r = pv r.2) :
    (rows.map (fun r => if pr r then (r.1, g r.2) else r)).map Prod.snd
      = (rows.map Prod.snd).map (fun x => if pv x then g x else x) := by
  induction rows with
  | nil => rfl
  | cons r t ih =>
    have hr := h r (List.mem_cons_self r t)
    simp only [List.map_cons]
    rw [← hr]
    cases hp : pr r <;>
      simp [ih (fun x hx => h x (List.mem_cons_of_mem r hx))]

theorem tableSimAdd {α : Type} (k : α → String) {rows : List (String × α)} {l : List α}
    (hs : TableSim k rows l) (x : α) :
    TableSim k (afterPair rows (dbAdd k rows x)) (afterPair l (memAdd k l x)) := by
  obtain ⟨hmap, hkey⟩ := hs
  have hcond : rows.any (fun r => r.1 == k x) = l.any (fun y => k y == k x) := by
    rw [← hmap]
    exact mapSndAny rows _ _ (fun r hr => by rw [hkey r hr])
  unfold dbAdd memAdd
  rw [hcond]
  cases hc : l.any (fun y => k y == k x)
  · simp only [afterPair, Bool.false_eq_true, if_false]
    constructor
    · simp [hmap]
    · intro r hr
      rcases List.mem_append.mp hr with h' | h'
      · exact hkey r h'
      · simp only [List.mem_singleton] at h'
        subst h'
        rfl
  · simp only [afterPair, if_true]
    exact ⟨hmap, hkey⟩

theorem tableSimRemove {α : Type} (k : α → String) {rows : List (String × α)} {l : List α}
    (hs : TableSim k rows l) (id : String) :
    TableSim k (afterRemove rows (dbRemove rows id)) (afterRemove l (memRemove k l id)) := by
  obtain ⟨hmap, hkey⟩ := hs
  have hcond : rows.any (fun r => r.1 == id) = l.any (fun y => k y == id) := by
    rw [← hmap]
    exact mapSndAny rows _ _ (fun r hr => by rw [hkey r hr])
  have hfilter : (rows.filter (fun r => !(r.1 == id))).map Prod.snd
      = l.filter (fun y => !(k y == id)) := by
    rw [← hmap]
    exact mapSndFilter rows _ _ (fun r hr => by rw [hkey r hr])
  unfold dbRemove memRemove
  rw [hcond]
  cases hc : l.any (fun y => k y == id)
  · simp only [afterRemove, Bool.false_eq_true, if_false]
    exact ⟨hmap, hkey⟩
  · simp only [afterRemove, if_true]
    exact ⟨hfilter, fun r hr => hkey r (List.mem_of_mem_filter hr)⟩

theorem tableSimUpdate {α : Type} (k : α → String) (g : α → α) (hg : ∀ y, k (g y) = k y)
    {rows : List (String × α)} {l : List α} (hs : TableSim k rows l) (id : String) :
    TableSim k (afterPair rows (dbUpdate g rows id)) (afterPair l (memUpdate k g l id)) := by
  obtain ⟨hmap, hkey⟩ := hs
  have hfind : (rows.find? (fun r => r.1 == id)).map Prod.snd
      = l.find? (fun y => k y == id) := by
    rw [← hmap]
    exact mapSndFind rows _ _ (fun r hr => by rw [hkey r hr])
  unfold dbUpdate memUpdate
  cases hf : l.find? (fun y => k y == id) with
  | none =>
    have hrf : rows.find? (fun r => r.1 == id) = none := by
      cases hrf0 : rows.find? (fun r => r.1 == id)
      · rfl
      · rw [hrf0, hf] at hfind
        exact Option.noConfusion hfind
    rw [hrf]
    exact ⟨hmap, hkey⟩
  | some y =>
    obtain ⟨r, hrf, hry⟩ : ∃ r, rows.find? (fun r => r.1 == id) = some r ∧ r.2 = y := by
      cases hrf0 : rows.find? (fun r => r.1 == id) with
      | none => rw [hrf0, hf] at hfind; exact Option.noConfusion hfind
      | some r =>
        rw [hrf0, hf] at hfind
        exact ⟨r, rfl, by injection hfind⟩
    rw [hrf]
    simp only [afterPair]
    constructor
    · have hmu := mapSndUpdate rows (fun r => r.1 == id) (fun y => k y == id) g
        (fun r hr => by show (r.1 == id) = (k r.2 == id); rw [hkey r hr])
      rw [hmap] at hmu
      exact hmu
    · intro r' hr'
      rcases List.mem_map.mp hr' with ⟨r0, hr0, rfl⟩
      by_cases hp : (r0.1 == id) = true
      · simp only [hp, if_true]
        rw [hg r0.2]
        exact hkey r0 hr0
      · simp only [hp, if_false]
        exact hkey r0 hr0

theorem matchSimAdd {rows : List ((String × String) × MatchDecision)} {l : List MatchDecision}
    (hs : MatchTableSim rows l) (ro jo deal : String) (res : Bool) :
    MatchTableSim
      ((rows.filter (fun r => !(GetMatchID r.1.1 r.1.2 == GetMatchID ro jo)))
        ++ [((ro, jo), ⟨ro, jo, deal, res⟩)])
      ((l.filter (fun x => !(GetMatchID x.ResourceOffer x.JobOffer == GetMatchID ro jo)))
        ++ [⟨ro, jo, deal, res⟩]) := by
  obtain ⟨hmap, hkey⟩ := hs
  have hfilter : (rows.filter (fun r => !(GetMatchID r.1.1 r.1.2 == GetMatchID ro jo))).map Prod.snd
      = l.filter (fun x => !(GetMatchID x.ResourceOffer x.JobOffer == GetMatchID ro jo)) := by
    rw [← hmap]
    refine mapSndFilter rows _ _ (fun r hr => ?_)
    show (!(GetMatchID r.1.1 r.1.2 == GetMatchID ro jo))
        = (!(GetMatchID r.2.ResourceOffer r.2.JobOffer == GetMatchID ro jo))
    rw [hkey r hr]
  constructor
  · rw [List.map_append, hfilter]
    rfl
  · intro r hr
    rcases List.mem_append.mp hr with h' | h'
    · exact hkey r (List.mem_of_mem_filter h')
    · simp only [List.mem_singleton] at h'
      subst h'
      rfl

theorem matchSimRemove {rows : List ((String × String) × MatchDecision)} {l : List MatchDecision}
    (hs : MatchTableSim rows l) (ro jo : String) :
    MatchTableSim
      (rows.filter (fun r => !((ro == "" || r.1.1 == ro) && (jo == "" || r.1.2 == jo))))
      (l.filter (fun x => !(matchesWildcard ro jo x))) := by
  obtain ⟨hmap, hkey⟩ := hs
  constructor
  · rw [← hmap]
    refine mapSndFilter rows _ _ (fun r hr => ?_)
    show (!((ro == "" || r.1.1 == ro) && (jo == "" || r.1.2 == jo)))
        = (!(matchesWildcard ro jo r.2))
    unfold matchesWildcard
    rw [hkey r hr]
  · intro r hr
    exact hkey r (List.mem_of_mem_filter hr)

theorem simStep (m : SolverStoreMemory) (d : SolverStoreDatabase) (op : StoreOp)
    (hsim : Sim m d) : Sim (m.applyOp op) (d.applyOp op) := by
  obtain ⟨h1, h2, h3, h4, h5⟩ := hsim
  cases op with
  | addJobOffer jo =>
    have em : SolverStoreMemory.applyOp m (.addJobOffer jo)
        = { m with jobOffers := (afterPair m.jobOffers (memAdd (fun x => x.ID) m.jobOffers jo)) } := by
      show afterPair m (m.AddJobOffer jo) = _
      unfold SolverStoreMemory.AddJobOffer
      cases memAdd (fun x => x.ID) m.jobOffers jo with
      | error e => rfl
      | ok p => cases p; rfl
    have ed : SolverStoreDatabase.applyOp d (.addJobOffer jo)
        = { d with jobOfferRows := (afterPair d.jobOfferRows (dbAdd (fun x => x.ID) d.jobOfferRows jo)) } := by
      show afterPair d (d.AddJobOffer jo) = _
      unfold SolverStoreDatabase.AddJobOffer
      cases dbAdd (fun x => x.ID) d.jobOfferRows jo with
      | error e => rfl
      | ok p => cases p; rfl
    rw [em, ed]
    exact ⟨tableSimAdd _ h1 jo, h2, h3, h4, h5⟩

  | updateJobOfferState id dealID st =>
    have em : SolverStoreMemory.applyOp m (.updateJobOfferState id dealID st)
        = { m with jobOffers := (afterPair m.jobOffers
            (memUpdate (fun x => x.ID) (fun x => { x with DealID := dealID, State := st }) m.jobOffers id)) } := by
      show afterPair m (m.UpdateJobOfferState id dealID st) = _
      unfold SolverStoreMemory.UpdateJobOfferState
      cases memUpdate (fun x => x.ID) (fun x => { x with DealID := dealID, State := st }) m.jobOffers id with
      | error e => rfl
      | ok p => cases p; rfl
    have ed : SolverStoreDatabase.applyOp d (.updateJobOfferState id dealID st)
        = { d with jobOfferRows := (afterPair d.jobOfferRows
            (dbUpdate (fun x => { x with DealID := dealID, State := st }) d.jobOfferRows id)) } := by
      show afterPair d (d.UpdateJobOfferState id dealID st) = _
      unfold SolverStoreDatabase.UpdateJobOfferState
      cases dbUpdate (fun x => { x with DealID := dealID, State := st }) d.jobOfferRows id with
      | error e => rfl
      | ok p => cases p; rfl
    rw [em, ed]
    exact ⟨tableSimUpdate _ (fun x => { x with DealID := dealID, State := st }) (fun y => rfl) h1 id, h2, h3, h4, h5⟩

  | removeJobOffer id =>
    have em : SolverStoreMemory.applyOp m (.removeJobOffer id)
        = { m with jobOffers := (afterRemove m.jobOffers (memRemove (fun x => x.ID) m.jobOffers id)) } := by
      show afterRemove m (m.RemoveJobOffer id) = _
      unfold SolverStoreMemory.RemoveJobOffer
      cases memRemove (fun x => x.ID) m.jobOffers id with
      | error e => rfl
      | ok l => rfl
    have ed : SolverStoreDatabase.applyOp d (.removeJobOffer id)
        = { d with jobOfferRows := (afterRemove d.jobOfferRows (dbRemove d.jobOfferRows id)) } := by
      show afterRemove d (d.RemoveJobOffer id) = _
      unfold SolverStoreDatabase.RemoveJobOffer
      cases dbRemove d.jobOfferRows id with
      | error e => rfl
      | ok l => rfl
    rw [em, ed]
    exact ⟨tableSimRemove _ h1 id, h2, h3, h4, h5⟩

  | addResourceOffer ro =>
    have em : SolverStoreMemory.applyOp m (.addResourceOffer ro)
        = { m with resourceOffers := (afterPair m.resourceOffers (memAdd (fun x => x.ID) m.resourceOffers ro)) } := by
      show afterPair m (m.AddResourceOffer ro) = _
      unfold SolverStoreMemory.AddResourceOffer
      cases memAdd (fun x => x.ID) m.resourceOffers ro with
      | error e => rfl
      | ok p => cases p; rfl
    have ed : SolverStoreDatabase.applyOp d (.addResourceOffer ro)
        = { d with resourceOfferRows := (afterPair d.resourceOfferRows (dbAdd (fun x => x.ID) d.resourceOfferRows ro)) } := by
      show afterPair d (d.AddResourceOffer ro) = _
      unfold SolverStoreDatabase.AddResourceOffer
      cases dbAdd (fun x => x.ID) d.resourceOfferRows ro with
      | error e => rfl
      | ok p => cases p; rfl
    rw [em, ed]
    exact ⟨h1, tableSimAdd _ h2 ro, h3, h4, h5⟩

  | updateResourceOfferState id dealID st =>
    have em : SolverStoreMemory.applyOp m (.updateResourceOfferState id dealID st)
        = { m with resourceOffers := (afterPair m.resourceOffers
            (memUpdate (fun x => x.ID) (fun x => { x with DealID := dealID, State := st }) m.resourceOffers id)) } := by
      show afterPair m (m.UpdateResourceOfferState id dealID st) = _
      unfold SolverStoreMemory.UpdateResourceOfferState
      cases memUpdate (fun x => x.ID) (fun x => { x with DealID := dealID, State := st }) m.resourceOffers id with
      | error e => rfl
      | ok p => cases p; rfl
    have ed : SolverStoreDatabase.applyOp d (.updateResourceOfferState id dealID st)
        = { d with resourceOfferRows := (afterPair d.resourceOfferRows
            (dbUpdate (fun x => { x with DealID := dealID, State := st }) d.resourceOfferRows id)) } := by
      show afterPair d (d.UpdateResourceOfferState id dealID st) = _
      unfold SolverStoreDatabase.UpdateResourceOfferState
      cases dbUpdate (fun x => { x with DealID := dealID, State := st }) d.resourceOfferRows id with
      | error e => rfl
      | ok p => cases p; rfl
    rw [em, ed]
    exact ⟨h1, tableSimUpdate _ (fun x => { x with DealID := dealID, State := st }) (fun y => rfl) h2 id, h3, h4, h5⟩

  | removeResourceOffer id =>
    have em : SolverStoreMemory.applyOp m (.removeResourceOffer id)
        = { m with resourceOffers := (afterRemove m.resourceOffers (memRemove (fun x => x.ID) m.resourceOffers id)) } := by
      show afterRemove m (m.RemoveResourceOffer id) = _
      unfold SolverStoreMemory.RemoveResourceOffer
      cases memRemove (fun x => x.ID) m.resourceOffers id with
      | error e => rfl
      | ok l => rfl
    have ed : SolverStoreDatabase.applyOp d (.removeResourceOffer id)
        = { d with resourceOfferRows := (afterRemove d.resourceOfferRows (dbRemove d.resourceOfferRows id)) } := by
      show afterRemove d (d.RemoveResourceOffer id) = _
      unfold SolverStoreDatabase.RemoveResourceOffer
      cases dbRemove d.resourceOfferRows id with
      | error e => rfl
      | ok l => rfl
    rw [em, ed]
    exact ⟨h1, tableSimRemove _ h2 id, h3, h4, h5⟩

  | addDeal dl =>
    have em : SolverStoreMemory.applyOp m (.addDeal dl)
        = { m with deals := (afterPair m.deals (memAdd (fun x => x.ID) m.deals dl)) } := by
      show afterPair m (m.AddDeal dl) = _
      unfold SolverStoreMemory.AddDeal
      cases memAdd (fun x => x.ID) m.deals dl with
      | error e => rfl
      | ok p => cases p; rfl
    have ed : SolverStoreDatabase.applyOp d (.addDeal dl)
        = { d with dealRows := (afterPair d.dealRows (dbAdd (fun x => x.ID) d.dealRows dl)) } := by
      show afterPair d (d.AddDeal dl) = _
      unfold SolverStoreDatabase.AddDeal
      cases dbAdd (fun x => x.ID) d.dealRows dl with
      | error e => rfl
      | ok p => cases p; rfl
    rw [em, ed]
    exact ⟨h1, h2, tableSimAdd _ h3 dl, h4, h5⟩

  | updateDealState id st =>
    have em : SolverStoreMemory.applyOp m (.updateDealState id st)
        = { m with deals := (afterPair m.deals
            (memUpdate (fun x => x.ID) (fun x => { x with State := st }) m.deals id)) } := by
      show afterPair m (m.UpdateDealState id st) = _
      unfold SolverStoreMemory.UpdateDealState
      cases memUpdate (fun x => x.ID) (fun x => { x with State := st }) m.deals id with
      | error e => rfl
      | ok p => cases p; rfl
    have ed : SolverStoreDatabase.applyOp d (.updateDealState id st)
        = { d with dealRows := (afterPair d.dealRows
            (dbUpdate (fun x => { x with State := st }) d.dealRows id)) } := by
      show afterPair d (d.UpdateDealState id st) = _
      unfold SolverStoreDatabase.UpdateDealState
      cases dbUpdate (fun x => { x with State := st }) d.dealRows id with
      | error e => rfl
      | ok p => cases p; rfl
    rw [em, ed]
    exact ⟨h1, h2, tableSimUpdate _ (fun x => { x with State := st }) (fun y => rfl) h3 id, h4, h5⟩

  | updateDealMediator id mv =>
    have em : SolverStoreMemory.applyOp m (.updateDealMediator id mv)
        = { m with deals := (afterPair m.deals
            (memUpdate (fun x => x.ID) (fun x => { x with Mediator := mv }) m.deals id)) } := by
      show afterPair m (m.UpdateDealMediator id mv) = _
      unfold SolverStoreMemory.UpdateDealMediator
      cases memUpdate (fun x => x.ID) (fun x => { x with Mediator := mv }) m.deals id with
      | error e => rfl
      | ok p => cases p; rfl
    have ed : SolverStoreDatabase.applyOp d (.updateDealMediator id mv)
        = { d with dealRows := (afterPair d.dealRows
            (dbUpdate (fun x => { x with Mediator := mv }) d.dealRows id)) } := by
      show afterPair d (d.UpdateDealMediator id mv) = _
      unfold SolverStoreDatabase.UpdateDealMediator
      cases dbUpdate (fun x => { x with Mediator := mv }) d.dealRows id with
      | error e => rfl
      | ok p => cases p; rfl
    rw [em, ed]
    exact ⟨h1, h2, tableSimUpdate _ (fun x => { x with Mediator := mv }) (fun y => rfl) h3 id, h4, h5⟩

  | updateDealTransactionsJobCreator id tx =>
    have em : SolverStoreMemory.applyOp m (.updateDealTransactionsJobCreator id tx)
        = { m with deals := (afterPair m.deals
            (memUpdate (fun x => x.ID) (fun x => { x with Transactions := { x.Transactions with JobCreator := tx } }) m.deals id)) } := by
      show afterPair m (m.UpdateDealTransactionsJobCreator id tx) = _
      unfold SolverStoreMemory.UpdateDealTransactionsJobCreator
      cases memUpdate (fun x => x.ID) (fun x => { x with Transactions := { x.Transactions with JobCreator := tx } }) m.deals id with
      | error e => rfl
      | ok p => cases p; rfl
    have ed : SolverStoreDatabase.applyOp d (.updateDealTransactionsJobCreator id tx)
        = { d with dealRows := (afterPair d.dealRows
            (dbUpdate (fun x => { x with Transactions := { x.Transactions with JobCreator := tx } }) d.dealRows id)) } := by
      show afterPair d (d.UpdateDealTransactionsJobCreator id tx) = _
      unfold SolverStoreDatabase.UpdateDealTransactionsJobCreator
      cases dbUpdate (fun x => { x with Transactions := { x.Transactions with JobCreator := tx } }) d.dealRows id with
      | error e => rfl
      | ok p => cases p; rfl
    rw [em, ed]
    exact ⟨h1, h2, tableSimUpdate _ (fun x => { x with Transactions := { x.Transactions with JobCreator := tx } }) (fun y => rfl) h3 id, h4, h5⟩

  | updateDealTransactionsResourceProvider id tx =>
    have em : SolverStoreMemory.applyOp m (.updateDealTransactionsResourceProvider id tx)
        = { m with deals := (afterPair m.deals
            (memUpdate (fun x => x.ID) (fun x => { x with Transactions := { x.Transactions with ResourceProvider := tx } }) m.deals id)) } := by
      show afterPair m (m.UpdateDealTransactionsResourceProvider id tx) = _
      unfold SolverStoreMemory.UpdateDealTransactionsResourceProvider
      cases memUpdate (fun x => x.ID) (fun x => { x with Transactions := { x.Transactions with ResourceProvider := tx } }) m.deals id with
      | error e => rfl
      | ok p => cases p; rfl
    have ed : SolverStoreDatabase.applyOp d (.updateDealTransactionsResourceProvider id tx)
        = { d with dealRows := (afterPair d.dealRows
            (dbUpdate (fun x => { x with Transactions := { x.Transactions with ResourceProvider := tx } }) d.dealRows id)) } := by
      show afterPair d (d.UpdateDealTransactionsResourceProvider id tx) = _
      unfold SolverStoreDatabase.UpdateDealTransactionsResourceProvider
      cases dbUpdate (fun x => { x with Transactions := { x.Transactions with ResourceProvider := tx } }) d.dealRows id with
      | error e => rfl
      | ok p => cases p; rfl
    rw [em, ed]
    exact ⟨h1, h2, tableSimUpdate _ (fun x => { x with Transactions := { x.Transactions with ResourceProvider := tx } }) (fun y => rfl) h3 id, h4, h5⟩

  | updateDealTransactionsMediator id tx =>
    have em : SolverStoreMemory.applyOp m (.updateDealTransactionsMediator id tx)
        = { m with deals := (afterPair m.deals
            (memUpdate (fun x => x.ID) (fun x => { x with Transactions := { x.Transactions with Mediator := tx } }) m.deals id)) } := by
      show afterPair m (m.UpdateDealTransactionsMediator id tx) = _
      unfold SolverStoreMemory.UpdateDealTransactionsMediator
      cases memUpdate (fun x => x.ID) (fun x => { x with Transactions := { x.Transactions with Mediator := tx } }) m.deals id with
      | error e => rfl
      | ok p => cases p; rfl
    have ed : SolverStoreDatabase.applyOp d (.updateDealTransactionsMediator id tx)
        = { d with dealRows := (afterPair d.dealRows
            (dbUpdate (fun x => { x with Transactions := { x.Transactions with Mediator := tx } }) d.dealRows id)) } := by
      show afterPair d (d.UpdateDealTransactionsMediator id tx) = _
      unfold SolverStoreDatabase.UpdateDealTransactionsMediator
      cases dbUpdate (fun x => { x with Transactions := { x.Transactions with Mediator := tx } }) d.dealRows id with
      | error e => rfl
      | ok p => cases p; rfl
    rw [em, ed]
    exact ⟨h1, h2, tableSimUpdate _ (fun x => { x with Transactions := { x.Transactions with Mediator := tx } }) (fun y => rfl) h3 id, h4, h5⟩

  | removeDeal id =>
    have em : SolverStoreMemory.applyOp m (.removeDeal id)
        = { m with deals := (afterRemove m.deals (memRemove (fun x => x.ID) m.deals id)) } := by
      show afterRemove m (m.RemoveDeal id) = _
      unfold SolverStoreMemory.RemoveDeal
      cases memRemove (fun x => x.ID) m.deals id with
      | error e => rfl
      | ok l => rfl
    have ed : SolverStoreDatabase.applyOp d (.removeDeal id)
        = { d with dealRows := (afterRemove d.dealRows (dbRemove d.dealRows id)) } := by
      show afterRemove d (d.RemoveDeal id) = _
      unfold SolverStoreDatabase.RemoveDeal
      cases dbRemove d.dealRows id with
      | error e => rfl
      | ok l => rfl
    rw [em, ed]
    exact ⟨h1, h2, tableSimRemove _ h3 id, h4, h5⟩

  | addResult r =>
    have em : SolverStoreMemory.applyOp m (.addResult r)
        = { m with results := (afterPair m.results (memAdd (fun x => x.DealID) m.results r)) } := by
      show afterPair m (m.AddResult r) = _
      unfold SolverStoreMemory.AddResult
      cases memAdd (fun x => x.DealID) m.results r with
      | error e => rfl
      | ok p => cases p; rfl
    have ed : SolverStoreDatabase.applyOp d (.addResult r)
        = { d with resultRows := (afterPair d.resultRows (dbAdd (fun x => x.DealID) d.resultRows r)) } := by
      show afterPair d (d.AddResult r) = _
      unfold SolverStoreDatabase.AddResult
      cases dbAdd (fun x => x.DealID) d.resultRows r with
      | error e => rfl
      | ok p => cases p; rfl
    rw [em, ed]
    exact ⟨h1, h2, h3, tableSimAdd _ h4 r, h5⟩

  | removeResult dealID =>
    have em : SolverStoreMemory.applyOp m (.removeResult dealID)
        = { m with results := (afterRemove m.results (memRemove (fun x => x.DealID) m.results dealID)) } := by
      show afterRemove m (m.RemoveResult dealID) = _
      unfold SolverStoreMemory.RemoveResult
      cases memRemove (fun x => x.DealID) m.results dealID with
      | error e => rfl
      | ok l => rfl
    have ed : SolverStoreDatabase.applyOp d (.removeResult dealID)
        = { d with resultRows := (afterRemove d.resultRows (dbRemove d.resultRows dealID)) } := by
      show afterRemove d (d.RemoveResult dealID) = _
      unfold SolverStoreDatabase.RemoveResult
      cases dbRemove d.resultRows dealID with
      | error e => rfl
      | ok l => rfl
    rw [em, ed]
    exact ⟨h1, h2, h3, tableSimRemove _ h4 dealID, h5⟩

  | addMatchDecision ro jo deal res =>
    exact ⟨h1, h2, h3, h4, matchSimAdd h5 ro jo deal res⟩
  | removeMatchDecision ro jo =>
    by_cases hc : (ro == "" && jo == "") = true
    · have em : SolverStoreMemory.applyOp m (.removeMatchDecision ro jo) = m := by
        show afterRemove m (m.RemoveMatchDecision ro jo) = _
        unfold SolverStoreMemory.RemoveMatchDecision
        rw [if_pos hc]
        rfl
      have ed : SolverStoreDatabase.applyOp d (.removeMatchDecision ro jo) = d := by
        show afterRemove d (d.RemoveMatchDecision ro jo) = _
        unfold SolverStoreDatabase.RemoveMatchDecision
        rw [if_pos hc]
        rfl
      rw [em, ed]
      exact ⟨h1, h2, h3, h4, h5⟩
    · have em : SolverStoreMemory.applyOp m (.removeMatchDecision ro jo)
          = { m with matchDecisions :=
              (m.matchDecisions.filter (fun x => !(matchesWildcard ro jo x))) } := by
        show afterRemove m (m.RemoveMatchDecision ro jo) = _
        unfold SolverStoreMemory.RemoveMatchDecision
        rw [if_neg hc]
        rfl
      have ed : SolverStoreDatabase.applyOp d (.removeMatchDecision ro jo)
          = { d with matchDecisionRows :=
              (d.matchDecisionRows.filter
                (fun r => !((ro == "" || r.1.1 == ro) && (jo == "" || r.1.2 == jo)))) } := by
        show afterRemove d (d.RemoveMatchDecision ro jo) = _
        unfold SolverStoreDatabase.RemoveMatchDecision
        rw [if_neg hc]
        rfl
      rw [em, ed]
      exact ⟨h1, h2, h3, h4, matchSimRemove h5 ro jo⟩

theorem simEmpty : Sim NewSolverStoreMemory NewSolverStoreDatabase := by
  refine ⟨⟨rfl, ?_⟩, ⟨rfl, ?_⟩, ⟨rfl, ?_⟩, ⟨rfl, ?_⟩, ⟨rfl, ?_⟩⟩ <;>
    intro r hr <;> exact absurd hr (List.not_mem_nil r)

theorem simRun (ops : List StoreOp) :
    ∀ m d, Sim m d →
      Sim (ops.foldl SolverStoreMemory.applyOp m) (ops.foldl SolverStoreDatabase.applyOp d) := by
  induction ops with
  | nil => intro m d h; exact h
  | cons op t ih => intro m d h; exact ih _ _ (simStep m d op h)

/-- Claim C1: running any sequence of Add/Update/Remove operations against the
in-memory backend and against the durable backend yields identical final query
results for every entity collection — job offers, resource offers, deals (filtered
and get-all), results, and match decisions. -/
theorem backendEquivalence (ops : List StoreOp)
    (qj : GetJobOffersQuery) (qr : GetResourceOffersQuery) (qd : GetDealsQuery) :
    (runMemory ops).GetJobOffers qj = (runDatabase ops).GetJobOffers qj
    ∧ (runMemory ops).GetResourceOffers qr = (runDatabase ops).GetResourceOffers qr
    ∧ (runMemory ops).GetDeals qd = (runDatabase ops).GetDeals qd
    ∧ (runMemory ops).GetDealsAll = (runDatabase ops).GetDealsAll
    ∧ (runMemory ops).GetResults = (runDatabase ops).GetResults
    ∧ (runMemory ops).GetMatchDecisions = (runDatabase ops).GetMatchDecisions := by
  obtain ⟨h1, h2, h3, h4, h5⟩ := simRun ops _ _ simEmpty
  unfold runMemory runDatabase
  refine ⟨?_, ?_, ?_, ?_, ?_, ?_⟩
  · unfold SolverStoreMemory.GetJobOffers SolverStoreDatabase.GetJobOffers
    rw [h1.1]
  · unfold SolverStoreMemory.GetResourceOffers SolverStoreDatabase.GetResourceOffers
    rw [h2.1]
  · unfold SolverStoreMemory.GetDeals SolverStoreDatabase.GetDeals
    rw [h3.1]
  · unfold SolverStoreMemory.GetDealsAll SolverStoreDatabase.GetDealsAll
    rw [h3.1]
  · unfold SolverStoreMemory.GetResults SolverStoreDatabase.GetResults
    rw [h4.1]
  · unfold SolverStoreMemory.GetMatchDecisions SolverStoreDatabase.GetMatchDecisions
    rw [h5.1]

theorem upsertLedgerNodup (l : List MatchDecision) (ro jo deal : String) (res : Bool)
    (h : (ledgerKeys l).Nodup) :
    (ledgerKeys
      ((l.filter (fun x => !(GetMatchID x.ResourceOffer x.JobOffer == GetMatchID ro jo)))
        ++ [⟨ro, jo, deal, res⟩])).Nodup := by
  have hmid : ∀ x ∈ l.filter
      (fun x => !(GetMatchID x.ResourceOffer x.JobOffer == GetMatchID ro jo)),
      (GetMatchID x.ResourceOffer x.JobOffer == GetMatchID ro jo) = false :=
    fun x hx => eq_false_of_bnot (List.mem_filter.mp hx).2
  unfold ledgerKeys at h ⊢
  rw [List.map_append]
  apply List.Nodup.append
  · exact List.Nodup.sublist ((List.filter_sublist _).map _) h
  · simp
  · intro a ha hb
    rcases List.mem_map.mp ha with ⟨x, hx, rfl⟩
    have hfalse := hmid x hx
    simp only [List.map, List.mem_singleton] at hb
    rw [show GetMatchID x.ResourceOffer x.JobOffer = GetMatchID ro jo from hb] at hfalse
    simp at hfalse

theorem applyOpLedgerNodup (m : SolverStoreMemory) (op : StoreOp)
    (h : (ledgerKeys m.matchDecisions).Nodup) :
    (ledgerKeys (m.applyOp op).matchDecisions).Nodup := by
  cases op with
  | addMatchDecision ro jo deal res => exact upsertLedgerNodup _ ro jo deal res h
  | removeMatchDecision ro jo =>
    by_cases hc : (ro == "" && jo == "") = true
    · have em : SolverStoreMemory.applyOp m (.removeMatchDecision ro jo) = m := by
        show afterRemove m (m.RemoveMatchDecision ro jo) = _
        unfold SolverStoreMemory.RemoveMatchDecision
        rw [if_pos hc]
        rfl
      rw [em]
      exact h
    · have em : SolverStoreMemory.applyOp m (.removeMatchDecision ro jo)
          = { m with matchDecisions :=
              (m.matchDecisions.filter (fun x => !(matchesWildcard ro jo x))) } := by
        show afterRemove m (m.RemoveMatchDecision ro jo) = _
        unfold SolverStoreMemory.RemoveMatchDecision
        rw [if_neg hc]
        rfl
      rw [em]
      unfold ledgerKeys at h ⊢
      exact List.Nodup.sublist ((List.filter_sublist _).map _) h
  | addJobOffer jo =>
    have em : (SolverStoreMemory.applyOp m (.addJobOffer jo)).matchDecisions = m.matchDecisions := by
      show (afterPair m (m.AddJobOffer jo)).matchDecisions = _
      unfold SolverStoreMemory.AddJobOffer
      cases memAdd (fun x => x.ID) m.jobOffers jo with
      | error e => rfl
      | ok p => cases p; rfl
    rw [em]
    exact h
  | updateJobOfferState id dealID st =>
    have em : (SolverStoreMemory.applyOp m (.updateJobOfferState id dealID st)).matchDecisions = m.matchDecisions := by
      show (afterPair m (m.UpdateJobOfferState id dealID st)).matchDecisions = _
      unfold SolverStoreMemory.UpdateJobOfferState
      cases memUpdate (fun x => x.ID) (fun x => { x with DealID := dealID, State := st }) m.jobOffers id with
      | error e => rfl
      | ok p => cases p; rfl
    rw [em]
    exact h
  | addResourceOffer ro =>
    have em : (SolverStoreMemory.applyOp m (.addResourceOffer ro)).matchDecisions = m.matchDecisions := by
      show (afterPair m (m.AddResourceOffer ro)).matchDecisions = _
      unfold SolverStoreMemory.AddResourceOffer
      cases memAdd (fun x => x.ID) m.resourceOffers ro with
      | error e => rfl
      | ok p => cases p; rfl
    rw [em]
    exact h
  | updateResourceOfferState id dealID st =>
    have em : (SolverStoreMemory.applyOp m (.updateResourceOfferState id dealID st)).matchDecisions = m.matchDecisions := by
      show (afterPair m (m.UpdateResourceOfferState id dealID st)).matchDecisions = _
      unfold SolverStoreMemory.UpdateResourceOfferState
      cases memUpdate (fun x => x.ID) (fun x => { x with DealID := dealID, State := st }) m.resourceOffers id with
      | error e => rfl
      | ok p => cases p; rfl
    rw [em]
    exact h
  | addDeal dl =>
    have em : (SolverStoreMemory.applyOp m (.addDeal dl)).matchDecisions = m.matchDecisions := by
      show (afterPair m (m.AddDeal dl)).matchDecisions = _
      unfold SolverStoreMemory.AddDeal
      cases memAdd (fun x => x.ID) m.deals dl with
      | error e => rfl
      | ok p => cases p; rfl
    rw [em]
    exact h
  | updateDealState id st =>
    have em : (SolverStoreMemory.applyOp m (.updateDealState id st)).matchDecisions = m.matchDecisions := by
      show (afterPair m (m.UpdateDealState id st)).matchDecisions = _
      unfold SolverStoreMemory.UpdateDealState
      cases memUpdate (fun x => x.ID) (fun x => { x with State := st }) m.deals id with
      | error e => rfl
      | ok p => cases p; rfl
    rw [em]
    exact h
  | updateDealMediator id mv =>
    have em : (SolverStoreMemory.applyOp m (.updateDealMediator id mv)).matchDecisions = m.matchDecisions := by
      show (afterPair m (m.UpdateDealMediator id mv)).matchDecisions = _
      unfold SolverStoreMemory.UpdateDealMediator
      cases memUpdate (fun x => x.ID) (fun x => { x with Mediator := mv }) m.deals id with
      | error e => rfl
      | ok p => cases p; rfl
    rw [em]
    exact h
  | updateDealTransactionsJobCreator id tx =>
    have em : (SolverStoreMemory.applyOp m (.updateDealTransactionsJobCreator id tx)).matchDecisions = m.matchDecisions := by
      show (afterPair m (m.UpdateDealTransactionsJobCreator id tx)).matchDecisions = _
      unfold SolverStoreMemory.UpdateDealTransactionsJobCreator
      cases memUpdate (fun x => x.ID) (fun x => { x with Transactions := { x.Transactions with JobCreator := tx } }) m.deals id with
      | error e => rfl
      | ok p => cases p; rfl
    rw [em]
    exact h
  | updateDealTransactionsResourceProvider id tx =>
    have em : (SolverStoreMemory.applyOp m (.updateDealTransactionsResourceProvider id tx)).matchDecisions = m.matchDecisions := by
      show (afterPair m (m.UpdateDealTransactionsResourceProvider id tx)).matchDecisions = _
      unfold SolverStoreMemory.UpdateDealTransactionsResourceProvider
      cases memUpdate (fun x => x.ID) (fun x => { x with Transactions := { x.Transactions with ResourceProvider := tx } }) m.deals id with
      | error e => rfl
      | ok p => cases p; rfl
    rw [em]
    exact h
  | updateDealTransactionsMediator id tx =>
    have em : (SolverStoreMemory.applyOp m (.updateDealTransactionsMediator id tx)).matchDecisions = m.matchDecisions := by
      show (afterPair m (m.UpdateDealTransactionsMediator id tx)).matchDecisions = _
      unfold SolverStoreMemory.UpdateDealTransactionsMediator
      cases memUpdate (fun x => x.ID) (fun x => { x with Transactions := { x.Transactions with Mediator := tx } }) m.deals id with
      | error e => rfl
      | ok p => cases p; rfl
    rw [em]
    exact h
  | addResult r =>
    have em : (SolverStoreMemory.applyOp m (.addResult r)).matchDecisions = m.matchDecisions := by
      show (afterPair m (m.AddResult r)).matchDecisions = _
      unfold SolverStoreMemory.AddResult
      cases memAdd (fun x => x.DealID) m.results r with
      | error e => rfl
      | ok p => cases p; rfl
    rw [em]
    exact h
  | removeJobOffer id =>
    have em : (SolverStoreMemory.applyOp m (.removeJobOffer id)).matchDecisions = m.matchDecisions := by
      show (afterRemove m (m.RemoveJobOffer id)).matchDecisions = _
      unfold SolverStoreMemory.RemoveJobOffer
      cases memRemove (fun x => x.ID) m.jobOffers id with
      | error e => rfl
      | ok l => rfl
    rw [em]
    exact h
  | removeResourceOffer id =>
    have em : (SolverStoreMemory.applyOp m (.removeResourceOffer id)).matchDecisions = m.matchDecisions := by
      show (afterRemove m (m.RemoveResourceOffer id)).matchDecisions = _
      unfold SolverStoreMemory.RemoveResourceOffer
      cases memRemove (fun x => x.ID) m.resourceOffers id with
      | error e => rfl
      | ok l => rfl
    rw [em]
    exact h
  | removeDeal id =>
    have em : (SolverStoreMemory.applyOp m (.removeDeal id)).matchDecisions = m.matchDecisions := by
      show (afterRemove m (m.RemoveDeal id)).matchDecisions = _
      unfold SolverStoreMemory.RemoveDeal
      cases memRemove (fun x => x.ID) m.deals id with
      | error e => rfl
      | ok l => rfl
    rw [em]
    exact h
  | removeResult dealID =>
    have em : (SolverStoreMemory.applyOp m (.removeResult dealID)).matchDecisions = m.matchDecisions := by
      show (afterRemove m (m.RemoveResult dealID)).matchDecisions = _
      unfold SolverStoreMemory.RemoveResult
      cases memRemove (fun x => x.DealID) m.results dealID with
      | error e => rfl
      | ok l => rfl
    rw [em]
    exact h

theorem runLedgerNodup (ops : List StoreOp) :
    (ledgerKeys (runMemory ops).matchDecisions).Nodup := by
  suffices hgen : ∀ m, (ledgerKeys m.matchDecisions).Nodup →
      (ledgerKeys (ops.foldl SolverStoreMemory.applyOp m).matchDecisions).Nodup by
    exact hgen NewSolverStoreMemory (by simp [NewSolverStoreMemory, ledgerKeys])
  induction ops with
  | nil => intro m h; exact h
  | cons op t ih => intro m h; exact ih _ (applyOpLedgerNodup m op h)

/-- Claim C3: AddMatchDecision upserts — it always succeeds (never fails with
Duplicate, even when a decision for the pair already exists), returns the stored
decision built from the supplied values, and afterwards GetMatchDecision for the
pair returns those values; and the ledger invariant holds at every point: after any
operation sequence from the empty store, the ledger holds at most one decision per
distinct unordered offer pair (its MatchID keys are nodup). -/
theorem addMatchDecisionUpsert (s : SolverStoreMemory) (ro jo deal : String) (res : Bool)
    (h : (ledgerKeys s.matchDecisions).Nodup) :
    (∃ s', s.AddMatchDecision ro jo deal res = .ok (⟨ro, jo, deal, res⟩, s')
      ∧ s'.GetMatchDecision ro jo = some ⟨ro, jo, deal, res⟩
      ∧ (ledgerKeys s'.matchDecisions).Nodup)
    ∧ ∀ ops, (ledgerKeys (runMemory ops).matchDecisions).Nodup := by
  have hmid : ∀ x ∈ s.matchDecisions.filter
      (fun x => !(GetMatchID x.ResourceOffer x.JobOffer == GetMatchID ro jo)),
      (GetMatchID x.ResourceOffer x.JobOffer == GetMatchID ro jo) = false :=
    fun x hx => eq_false_of_bnot (List.mem_filter.mp hx).2
  refine ⟨⟨_, rfl, ?_, ?_⟩, fun ops => runLedgerNodup ops⟩
  · unfold SolverStoreMemory.GetMatchDecision
    rw [show (SolverStoreMemory.mk s.jobOffers s.resourceOffers s.deals s.results
      ((s.matchDecisions.filter
        (fun x => !(GetMatchID x.ResourceOffer x.JobOffer == GetMatchID ro jo)))
        ++ [⟨ro, jo, deal, res⟩])).matchDecisions
      = (s.matchDecisions.filter
          (fun x => !(GetMatchID x.ResourceOffer x.JobOffer == GetMatchID ro jo)))
          ++ [⟨ro, jo, deal, res⟩] from rfl]
    rw [find?_append_left_none hmid]
    simp [List.find?]
  · exact upsertLedgerNodup s.matchDecisions ro jo deal res h
/-- Concrete witness for claim C3 at a ledger already holding a decision for the
same pair. -/
theorem addMatchDecisionUpsert_witness :
    ∃ s', SolverStoreMemory.AddMatchDecision ⟨[], [], [], [], [⟨"r1", "j1", "d0", false⟩]⟩
        "r1" "j1" "d9" true = .ok (⟨"r1", "j1", "d9", true⟩, s')
      ∧ s'.GetMatchDecision "r1" "j1" = some ⟨"r1", "j1", "d9", true⟩
      ∧ (ledgerKeys s'.matchDecisions).Nodup :=
  (addMatchDecisionUpsert ⟨[], [], [], [], [⟨"r1", "j1", "d0", false⟩]⟩
    "r1" "j1" "d9" true (by decide)).1

/-- Concrete witness for claim C4. -/
theorem jobOfferQueryDefaultExcludesCancelled_witness :
    SolverStoreMemory.GetJobOffers
        ⟨[⟨"a", "jc", "", 0⟩, ⟨"b", "jc", "", 10⟩], [], [], [], []⟩ {} = [⟨"a", "jc", "", 0⟩]
      ∧ SolverStoreMemory.GetJobOffers
        ⟨[⟨"a", "jc", "", 0⟩, ⟨"b", "jc", "", 10⟩], [], [], [], []⟩ { IncludeCancelled := true }
        = [⟨"a", "jc", "", 0⟩, ⟨"b", "jc", "", 10⟩] :=
  jobOfferQueryDefaultExcludesCancelled ⟨"a", "jc", "", 0⟩ ⟨"b", "jc", "", 10⟩
    (by decide) (by decide) _ rfl

/-- Concrete witness for claim C5. -/
theorem resourceOfferCombinedFilter_witness :
    (⟨"r1", "0xp", "", 0⟩ : ResourceOfferContainer) ∈ SolverStoreMemory.GetResourceOffers
      ⟨[], [⟨"r1", "0xp", "", 0⟩], [], [], []⟩
      { ResourceProvider := "0xp", NotMatched := true, Active := true } :=
  ((resourceOfferCombinedFilter ⟨[], [⟨"r1", "0xp", "", 0⟩], [], [], []⟩ "0xp" (by decide)
    ⟨"r1", "0xp", "", 0⟩).1).mpr ⟨by decide, rfl, rfl, by decide⟩

/-- Concrete witness for claim C6 at one-element collections with key "k". -/
theorem entityDeleteThenAbsent_witness :
    (SolverStoreMemory.GetJobOffer { sampleStore with jobOffers := [] } "k" = none
      ∧ SolverStoreMemory.RemoveJobOffer { sampleStore with jobOffers := [] } "k"
          = .error .notFound)
    ∧ (SolverStoreMemory.GetResourceOffer { sampleStore with resourceOffers := [] } "k" = none
      ∧ SolverStoreMemory.RemoveResourceOffer { sampleStore with resourceOffers := [] } "k"
          = .error .notFound)
    ∧ (SolverStoreMemory.GetDeal { sampleStore with deals := [] } "k" = none
      ∧ SolverStoreMemory.RemoveDeal { sampleStore with deals := [] } "k"
          = .error .notFound)
    ∧ (SolverStoreMemory.GetResult { sampleStore with results := [] } "k" = none
      ∧ SolverStoreMemory.RemoveResult { sampleStore with results := [] } "k"
          = .error .notFound) :=
  ⟨(entityDeleteThenAbsent sampleStore "k").1 _ rfl,
   (entityDeleteThenAbsent sampleStore "k").2.1 _ rfl,
   (entityDeleteThenAbsent sampleStore "k").2.2.1 _ rfl,
   (entityDeleteThenAbsent sampleStore "k").2.2.2.1 _ rfl⟩

/-- Concrete witness for claim C7: a present deal updates, an absent id fails. -/
theorem dealFacetUpdates_witness :
    (∃ s', SolverStoreMemory.UpdateDealState sampleStore "k" 3
        = .ok ({ sampleDeal with State := 3 }, s')
      ∧ s'.GetDeal "k" = some { sampleDeal with State := 3 })
    ∧ SolverStoreMemory.UpdateDealState sampleStore "zz" 3 = .error .notFound :=
  ⟨((dealFacetUpdates sampleStore "k").1 sampleDeal rfl).1 3,
   ((dealFacetUpdates sampleStore "zz").2 rfl).1 3⟩

/-- Concrete witness for claim C8. -/
theorem matchDecisionWildcardRemove_witness :
    (∃ s', SolverStoreMemory.RemoveMatchDecision sampleDecisionStore "r1" "" = .ok s'
        ∧ s'.GetMatchDecision "r1" "j1" = none)
    ∧ (∃ s', SolverStoreMemory.RemoveMatchDecision sampleDecisionStore "" "j1" = .ok s'
        ∧ s'.GetMatchDecision "r1" "j1" = none)
    ∧ (∃ s', SolverStoreMemory.RemoveMatchDecision sampleDecisionStore "r1" "j1" = .ok s'
        ∧ s'.GetMatchDecision "r1" "j1" = none) :=
  matchDecisionWildcardRemove "r1" "j1" "d1" true (by decide) (by decide)
    sampleDecisionStore rfl

/-- Concrete witness for claim C10, using a wildcard argument. -/
theorem removeMatchDecisionAbsent_witness :
    SolverStoreMemory.RemoveMatchDecision sampleDecisionStore "rX" "" = .ok sampleDecisionStore :=
  removeMatchDecisionAbsent sampleDecisionStore "rX" "" (by decide)
